import Mathlib

/-!
vtcomposite: a shallow embedding of `src/vtcomposite.cpp`.

The development has two halves.

* `CompositeWorker::Execute` / `HandleOKCallback` (the compositing task): the loop over the
  input tiles, the containment gate, decompression, lazy layer parsing, the `names` vector that
  implements layer de-duplication, the zoom-factor-1 fast path and the feature re-encoding path,
  followed by serialization and the completion callback.
* `composite` (the entry point): the chain of checks on the JavaScript arguments that either
  reports an error or queues a `CompositeWorker`.

Functions that live in other libraries (gzip-hpp, vtzero, mapbox geometry, V8) or in headers of
this repository that are not part of the sources at hand (`zxy_math.hpp`, `extract_geometry.hpp`,
`zoom_coordinates.hpp`, `feature_builder.hpp`) are collected in the structure `Env`: every theorem
about `Execute` holds for all their possible behaviours.  Byte ranges (`data_view`) are modelled
by their contents; a view that the tile builder keeps until `serialize` also records the buffer
it points into (`Storage`), because the buffer that holds decompressed data is destroyed at the
end of the loop iteration that created it.
-/

namespace vtile

/-! ## Data model -/

/-- A byte range (`vtzero::data_view`, `std::string`, `std::vector<char>`), by contents. -/
abbrev Bytes := List Nat

/-- The struct `TileObject`: `std::uint32_t z, x, y` and the view `data` on the caller's buffer. -/
structure TileObject where
  z : Nat
  x : Nat
  y : Nat
  data : Bytes
deriving DecidableEq, Repr

/-- The struct `BatonType`: the input tiles in caller order and the requested `z`, `x`, `y`. -/
structure BatonType where
  tiles : List TileObject
  z : Nat
  x : Nat
  y : Nat
deriving DecidableEq, Repr

/-- A parsed `vtzero::layer`: its name, its encoded bytes and its features (`F` is the type of a
`vtzero::feature`). -/
structure Layer (F : Type) where
  name : String
  data : Bytes
  features : List F
deriving DecidableEq, Repr

/-- The buffer a parsed tile lives in (where `tile_view` points, lines 105-114).  `caller` is
the caller's buffer `tile_obj->data`, kept alive by `buffer_ref` for the whole task.  `scratch`
is the `std::vector<char> buffer` declared at line 105 inside the loop body, into which a
compressed tile is decompressed; it is destroyed when the iteration ends (line 146), before
`builder.serialize` runs (line 153). -/
inductive Storage where
  | caller
  | scratch
deriving DecidableEq, Repr

/-- One entry of the `vtzero::tile_builder`.  `existing l s` is what `add_existing_layer(l)`
adds: not a copy but a view on the encoded layer `l`, which points into the buffer `s`, and
which is read when `serialize` is called.  `built l fs` is a `layer_builder{builder, l}` (name,
version and extent copied from `l`) holding the re-encoded features `fs`. -/
inductive OutLayer (F O : Type) where
  | existing (layer : Layer F) (storage : Storage)
  | built (layer : Layer F) (features : List O)
deriving DecidableEq, Repr

/-- The name of the layer a builder entry was added for. -/
def OutLayer.name {F O : Type} : OutLayer F O → String
  | .existing l _ => l.name
  | .built l _ => l.name

/-- An entry that is a view into a buffer which no longer exists when `serialize` runs. -/
def OutLayer.dangling {F O : Type} : OutLayer F O → Bool
  | .existing _ .scratch => true
  | _ => false

/-- The collaborators of `CompositeWorker::Execute` whose code is not in `vtcomposite.cpp`.

* `within_target t Z X Y`: the containment test of `zxy_math.hpp`.
* `is_compressed`, `decompress`: gzip-hpp; `decompress` may throw.
* `next_layers view`: the layers that successive calls of `tile.next_layer()` yield for a
  `vtzero::vector_tile` on `view`, and the message of the exception that ends the iteration, if
  one is thrown (`none`: the iteration ends normally with an invalid layer).
* `shift_out_of_range s`: the `int` produced by `1 << s` for a shift count `s ≥ 32`, which C++
  leaves undefined.
* `extract_geometry`, `zoom_coordinates`, `displacement`, `feature_builder`: the geometry
  pipeline applied to each feature on the re-encoding path; `feature_builder` returns the
  features it adds to the layer builder.
* `serialize b`: the bytes `builder.serialize` appends to the output string, and the message of
  the exception it throws, if any.  It is called after the loop over the tiles, so for an entry
  `existing l scratch` it reads memory that has been freed: nothing is assumed about what it
  returns then. -/
structure Env (F G O : Type) where
  within_target : TileObject → Nat → Nat → Nat → Bool
  is_compressed : Bytes → Bool
  decompress : Bytes → Except String Bytes
  next_layers : Bytes → List (Layer F) × Option String
  shift_out_of_range : Nat → Int
  extract_geometry : F → Except String G
  zoom_coordinates : Int → G → G
  displacement : Int → Int → Nat → Nat → Nat → Int × Int
  feature_builder : (Int × Int) × (Int × Int) → F → G → Except String (List O)
  serialize : List (OutLayer F O) → Bytes × Option String

/-! ## Machine arithmetic -/

/-- Difference of two `std::uint32_t` values (wraps modulo `2^32`). -/
def sub_u32 (a b : Nat) : Nat := (a + 2 ^ 32 - b % 2 ^ 32) % 2 ^ 32

/-- Conversion of an integer to the 32-bit two's complement `int` with the same low 32 bits. -/
def to_int32 (n : Int) : Int := (n + 2 ^ 31) % 2 ^ 32 - 2 ^ 31

/-- The `int` value of `1 << s` for an unsigned 32-bit shift count `s`.  For `s < 32` the value is
`2^s` converted to `int` (so `1 << 31` is `INT_MIN`); for `s ≥ 32` the shift is undefined and the
value is whatever `shift_out_of_range` says. -/
def shl_one (shift_out_of_range : Nat → Int) (s : Nat) : Int :=
  if s < 32 then to_int32 (2 ^ s) else shift_out_of_range s

/-- Line 116: `int zoom_factor = 1 << (target_z - tile_obj->z);`. -/
def zoom_factor (shift_out_of_range : Nat → Int) (target_z tile_z : Nat) : Int :=
  shl_one shift_out_of_range (sub_u32 target_z tile_z)

/-! ## `CompositeWorker::Execute` -/

section Execute

variable {F G O : Type}

/-- The local state of `Execute`: the vector `names`, the layers held by `builder` in the order
they were added, and the lines written to `std::cerr`. -/
structure ExecState (F O : Type) where
  names : List String
  builder : List (OutLayer F O)
  cerr : List String
deriving DecidableEq, Repr

/-- The state at the start of `Execute`. -/
def ExecState.init : ExecState F O := ⟨[], [], []⟩

/-- Lines 136-139: the clip box `bbox{{dx, dy}, {dx + tile_size, dy + tile_size}}`, with
`tile_size = 4096` and `(dx, dy)` the displacement. -/
def clip_box (env : Env F G O) (zf : Int) (tz tx ty : Nat) : (Int × Int) × (Int × Int) :=
  let tile_size : Int := 4096
  let d := env.displacement zf tile_size tz tx ty
  ((d.1, d.2), (to_int32 (d.1 + tile_size), to_int32 (d.2 + tile_size)))

/-- Lines 131-142: the body of `layer.for_each_feature`, applied to the features in order.  The
result is the list of features added to the layer builder, or the first exception. -/
def build_features (env : Env F G O) (zf : Int) (tz tx ty : Nat) : List F → Except String (List O)
  | [] => .ok []
  | feature :: rest =>
    match env.extract_geometry feature with
    | .error e => .error e
    | .ok geom =>
      let geom := env.zoom_coordinates zf geom
      let bbox := clip_box env zf tz tx ty
      match env.feature_builder bbox feature geom with
      | .error e => .error e
      | .ok out =>
        match build_features env zf tz tx ty rest with
        | .error e => .error e
        | .ok more => .ok (out ++ more)

/-- Lines 124-143: what is added to the builder for a layer whose name is new; `storage` is the
buffer the tile was parsed from. -/
def emit_layer (env : Env F G O) (zf : Int) (tz tx ty : Nat) (storage : Storage)
    (layer : Layer F) : Except String (OutLayer F O) :=
  if zf = 1 then .ok (.existing layer storage)
  else
    match build_features env zf tz tx ty layer.features with
    | .error e => .error e
    | .ok fs => .ok (.built layer fs)

/-- Lines 118-145: the `while (auto layer = tile.next_layer())` loop over the layers yielded. -/
def process_layers (env : Env F G O) (zf : Int) (tz tx ty : Nat) (storage : Storage) :
    ExecState F O → List (Layer F) → Except String (ExecState F O)
  | st, [] => .ok st
  | st, layer :: rest =>
    if layer.name ∈ st.names then process_layers env zf tz tx ty storage st rest
    else
      match emit_layer env zf tz tx ty storage layer with
      | .error e => .error e
      | .ok o =>
        process_layers env zf tz tx ty storage
          { st with names := st.names ++ [layer.name], builder := st.builder ++ [o] } rest

/-- Lines 105-114: the bytes the tile is parsed from (`tile_view`). -/
def tile_view (env : Env F G O) (t : TileObject) : Except String Bytes :=
  if env.is_compressed t.data then env.decompress t.data else .ok t.data

/-- Lines 105-114: the buffer `tile_view` points into: the loop-local `buffer` for a compressed
tile, the caller's buffer otherwise. -/
def tile_storage (env : Env F G O) (t : TileObject) : Storage :=
  if env.is_compressed t.data then .scratch else .caller

/-- Lines 103-150: the body of the loop over the tiles. -/
def process_tile (env : Env F G O) (tz tx ty : Nat) (st : ExecState F O) (t : TileObject) :
    Except String (ExecState F O) :=
  if env.within_target t tz tx ty then
    match tile_view env t with
    | .error e => .error e
    | .ok view =>
      let zf := zoom_factor env.shift_out_of_range tz t.z
      match process_layers env zf tz tx ty (tile_storage env t) st (env.next_layers view).1 with
      | .error e => .error e
      | .ok st' =>
        match (env.next_layers view).2 with
        | some e => .error e
        | none => .ok st'
  else .ok { st with cerr := st.cerr ++ ["Invalid tile composite request"] }

/-- Lines 101-151: the loop `for (auto const& tile_obj : baton_data_->tiles)`. -/
def process_tiles (env : Env F G O) (tz tx ty : Nat) :
    ExecState F O → List TileObject → Except String (ExecState F O)
  | st, [] => .ok st
  | st, t :: rest =>
    match process_tile env tz tx ty st t with
    | .error e => .error e
    | .ok st' => process_tiles env tz tx ty st' rest

/-- The members of `CompositeWorker` (and of its base `Nan::AsyncWorker`) that `Execute` writes:
the error message (`none` while no error is set) and the string `*output_buffer_`. -/
structure Worker where
  errmsg : Option String
  output_buffer : Bytes
deriving DecidableEq, Repr

/-- Lines 88-159: `CompositeWorker::Execute`.  An exception thrown anywhere in the `try` block
ends in `SetErrorMessage(e.what())`; `serialize` may have appended bytes before throwing.
When `serialize` is called the loop is over and every `scratch` buffer has been destroyed, so
the entries `existing l scratch` of the builder are dangling views. -/
def Execute (env : Env F G O) (baton : BatonType) : Worker :=
  match process_tiles env baton.z baton.x baton.y ExecState.init baton.tiles with
  | .error e => { errmsg := some e, output_buffer := [] }
  | .ok st => { errmsg := (env.serialize st.builder).2, output_buffer := (env.serialize st.builder).1 }

/-- What the JavaScript callback is called with: an error message, a buffer, or both. -/
structure CallbackArgs where
  error : Option String
  data : Option Bytes
deriving DecidableEq, Repr

/-- Lines 161-178: `HandleOKCallback` calls the callback with `(null, buffer)`. -/
def HandleOKCallback (w : Worker) : CallbackArgs := { error := none, data := some w.output_buffer }

/-- The default `Nan::AsyncWorker::HandleErrorCallback`: the callback is called with an `Error`
carrying the message, and nothing else. -/
def HandleErrorCallback (msg : String) : CallbackArgs := { error := some msg, data := none }

/-- The dispatch of `Nan::AsyncWorker::WorkComplete` once `Execute` has returned. -/
def WorkComplete (w : Worker) : CallbackArgs :=
  match w.errmsg with
  | none => HandleOKCallback w
  | some msg => HandleErrorCallback msg

/-- The whole task: `Execute` on a pool thread, then `WorkComplete`. -/
def run_worker (env : Env F G O) (baton : BatonType) : CallbackArgs :=
  WorkComplete (Execute env baton)

end Execute

/-! ## The JavaScript values handed to `composite` -/

/-- A JavaScript Number.  A finite double is `mantissa * 2^exponent` for integers `mantissa` and
`exponent`; `1.5` is `finite 3 (-1)`. -/
inductive JSNumber where
  | finite (mantissa : Int) (exponent : Int)
  | nan
  | pos_inf
  | neg_inf
deriving DecidableEq, Repr

/-- A JavaScript value (`v8::Local<v8::Value>`).  Every kind of object carries its properties;
an array also carries its elements and a node `Buffer` its bytes. -/
inductive JSValue where
  | undefined
  | null
  | boolean (b : Bool)
  | number (n : JSNumber)
  | string (s : String)
  | object (props : List (String × JSValue))
  | array (items : List JSValue) (props : List (String × JSValue))
  | function (props : List (String × JSValue))
  | buffer (data : Bytes) (props : List (String × JSValue))

/-- The properties of a value (none for a primitive). -/
def JSValue.props : JSValue → List (String × JSValue)
  | .object ps => ps
  | .array _ ps => ps
  | .function ps => ps
  | .buffer _ ps => ps
  | _ => []

/-- The test `v->IsFunction()`. -/
def IsFunction : JSValue → Bool
  | .function _ => true
  | _ => false

/-- The test `v->IsObject()`: arrays, functions and buffers are objects too. -/
def IsObject : JSValue → Bool
  | .object _ => true
  | .array _ _ => true
  | .function _ => true
  | .buffer _ _ => true
  | _ => false

/-- The test `v->IsNull() || v->IsUndefined()`. -/
def IsNullOrUndefined : JSValue → Bool
  | .null => true
  | .undefined => true
  | _ => false

/-- The test `obj->Has(Nan::New(key))`. -/
def Has (obj : JSValue) (key : String) : Bool :=
  obj.props.any (fun p => p.1 == key)

/-- The call `obj->Get(Nan::New(key))`: the value of the property, `undefined` when there is none. -/
def Get (obj : JSValue) (key : String) : JSValue :=
  match obj.props.find? (fun p => p.1 == key) with
  | some p => p.2
  | none => .undefined

/-- The expression `info[i]`: the `i`-th argument, `undefined` when there is none. -/
def arg (info : List JSValue) (i : Nat) : JSValue := info.getD i .undefined

/-- The expression `info[info.Length() - 1]`: the last argument, `undefined` when there is none. -/
def last_arg (info : List JSValue) : JSValue := info.getLast?.getD .undefined

/-- The least `std::int64_t`. -/
def int64_min : Int := -(2 ^ 63)

/-- The greatest `std::int64_t`. -/
def int64_max : Int := 2 ^ 63 - 1

/-- The call `v->IntegerValue()` on a Number (V8): the fraction is dropped (rounding toward zero), the
result saturates at the `std::int64_t` range, and `NaN` gives `0`. -/
def IntegerValue : JSNumber → Int
  | .finite m e =>
    let t := if 0 ≤ e then m * 2 ^ e.toNat else Int.tdiv m (2 ^ (-e).toNat)
    if t < int64_min then int64_min else if int64_max < t then int64_max else t
  | .nan => 0
  | .pos_inf => int64_max
  | .neg_inf => int64_min

/-- The cast `static_cast<std::uint32_t>(v)` for a `std::int64_t` `v`. -/
def to_u32 (v : Int) : Nat := (v % 2 ^ 32).toNat

/-! ## `composite` -/

/-- What a call of `composite` does: it throws, it passes an error to the callback
(`utils::CallbackError`), or it queues a `CompositeWorker` holding the baton. -/
inductive CompositeResult where
  | thrown (msg : String)
  | callback_error (msg : String)
  | queued (baton : BatonType)
deriving DecidableEq, Repr

/-- The three checks made in the source for each of `z`, `x`, `y` (for example lines 238-251):
the property exists, it is a Number, and its `IntegerValue()` is not negative.  The three
messages are those the source passes at that place. -/
def check_coord (obj : JSValue) (key : String) (msg_missing msg_not_number msg_negative : String) :
    Except String Int :=
  if !Has obj key then .error msg_missing
  else
    match Get obj key with
    | .number n =>
      let v := IntegerValue n
      if v < 0 then .error msg_negative else .ok v
    | _ => .error msg_not_number

/-- Lines 214-289: the body of the loop over the `tiles` array, for one element. -/
def check_tile (tile_val : JSValue) : Except String TileObject :=
  if !IsObject tile_val then .error "items in 'tiles' array must be objects"
  else if !Has tile_val "buffer" then
    .error "item in 'tiles' array does not include a buffer value"
  else if IsNullOrUndefined (Get tile_val "buffer") then
    .error "buffer value in 'tiles' array item is null or undefined"
  else
    match Get tile_val "buffer" with
    | .buffer data _ =>
      match check_coord tile_val "z" "item in 'tiles' array does not include a 'z' value"
          "'z' value in 'tiles' array item is not a number"
          "'z' value must not be less than zero" with
      | .error e => .error e
      | .ok z =>
        match check_coord tile_val "x" "item in 'tiles' array does not include a 'x' value"
            "'x' value in 'tiles' array item is not a number"
            "'x' value must not be less than zero" with
        | .error e => .error e
        | .ok x =>
          match check_coord tile_val "y" "item in 'tiles' array does not include a 'y' value"
              "'y' value in 'tiles' array item is not a number"
              "'y' value must not be less than zero" with
          | .error e => .error e
          | .ok y => .ok { z := to_u32 z, x := to_u32 x, y := to_u32 y, data := data }
    | _ => .error "buffer value in 'tiles' array item is not a true buffer"

/-- Lines 212-290: the loop over the `tiles` array; the first failing element ends it. -/
def check_tiles : List JSValue → Except String (List TileObject)
  | [] => .ok []
  | v :: rest =>
    match check_tile v with
    | .error e => .error e
    | .ok t =>
      match check_tiles rest with
      | .error e => .error e
      | .ok ts => .ok (t :: ts)

/-- Lines 292-350: the checks on the `zxy_maprequest` argument; the result is the `z`, `x`, `y`
stored in the baton. -/
def check_maprequest (req : JSValue) : Except String (Nat × Nat × Nat) :=
  if !IsObject req then .error "'zxy_maprequest' must be an object"
  else
    match check_coord req "z" "item in 'tiles' array does not include a 'z' value"
        "'z' value in 'tiles' array item is not a number"
        "'z' value must not be less than zero" with
    | .error e => .error e
    | .ok z =>
      match check_coord req "x" "item in 'tiles' array does not include a 'x' value"
          "'x' value in 'tiles' array item is not a number"
          "'x' value must not be less than zero" with
      | .error e => .error e
      | .ok x =>
        match check_coord req "y" "item in 'tiles' array does not include a 'y' value"
            "'y' value in 'tiles' array item is not a number"
            "'y' value must not be less than zero" with
        | .error e => .error e
        | .ok y => .ok (to_u32 z, to_u32 x, to_u32 y)

/-- Lines 184-355: `NAN_METHOD(composite)`.  The match on `arg info 0` is the test
`info[0]->IsArray()` followed by the cast to `v8::Array`. -/
def composite (info : List JSValue) : CompositeResult :=
  if !IsFunction (last_arg info) then .thrown "last argument must be a callback function"
  else
    match arg info 0 with
    | .array items _ =>
      if items.length ≤ 0 then .callback_error "'tiles' array must be of length greater than 0"
      else
        match check_tiles items with
        | .error e => .callback_error e
        | .ok tiles =>
          match check_maprequest (arg info 1) with
          | .error e => .callback_error e
          | .ok (z, x, y) => .queued { tiles := tiles, z := z, x := x, y := y }
    | _ => .callback_error "first arg 'tiles' must be an array of tile objects"

/-! ## Notions used to state the properties -/

/-- Modelled from the spec: `within_target` of `zxy_math.hpp`, which is not among the sources at
hand.  A tile `(z, x, y)` contributes to the window `(Z, X, Y)` when `z ≤ Z`, `X` shifted right
by `Z - z` equals `x`, and `Y` shifted right by `Z - z` equals `y`. -/
def within_target (t : TileObject) (Z X Y : Nat) : Bool :=
  decide (t.z ≤ Z) && (X >>> (Z - t.z) == t.x) && (Y >>> (Z - t.z) == t.y)

section Notions

variable {F G O : Type}

/-- The layers `Execute` iterates over for the tile `t`: those parsed from its view, none when
the view cannot be obtained. -/
def tile_layers (env : Env F G O) (t : TileObject) : List (Layer F) :=
  match tile_view env t with
  | .ok view => (env.next_layers view).1
  | .error _ => []

/-- The first layer named `n` in a list of layers. -/
def first_named (n : String) (layers : List (Layer F)) : Option (Layer F) :=
  layers.find? (fun l => l.name == n)

/-- The first tile, in caller order, that passes the containment test for the window
`(Z, X, Y)` and contains a layer named `n`. -/
def first_tile_with (env : Env F G O) (Z X Y : Nat) (n : String) (tiles : List TileObject) :
    Option TileObject :=
  tiles.find? (fun t => env.within_target t Z X Y && (tile_layers env t).any (fun l => l.name == n))

/-- The builder entries named `n`. -/
def layers_named (n : String) (builder : List (OutLayer F O)) : List (OutLayer F O) :=
  builder.filter (fun o => o.name == n)

/-- The layers of a list whose name has not been seen before: not in `seen` and not carried by
an earlier layer of the list. -/
def fresh_layers : List String → List (Layer F) → List (Layer F)
  | _, [] => []
  | seen, l :: rest =>
    if l.name ∈ seen then fresh_layers seen rest
    else l :: fresh_layers (seen ++ [l.name]) rest

end Notions

/-- The value of a Number when it is an integer (`none` for `1.5`, `NaN`, the infinities). -/
def JSNumber.toInt? : JSNumber → Option Int
  | .finite m e =>
    if 0 ≤ e then some (m * 2 ^ e.toNat)
    else if m % 2 ^ (-e).toNat = 0 then some (m / 2 ^ (-e).toNat) else none
  | _ => none

/-- A coordinate property that the checks of `composite` let through: it is present, it is a
Number, and the integer `v` that `IntegerValue()` yields for it is not negative. -/
def coord_accepted (obj : JSValue) (key : String) (v : Int) : Prop :=
  Has obj key = true ∧ ∃ n, Get obj key = .number n ∧ IntegerValue n = v ∧ 0 ≤ v

/-- A tile record that the checks of `composite` let through, with the `TileObject` built for
it: an object whose `buffer` property is a node `Buffer` and whose `z`, `x`, `y` are accepted
coordinates. -/
def tile_accepted (v : JSValue) (t : TileObject) : Prop :=
  IsObject v = true ∧ Has v "buffer" = true ∧
  ∃ data bprops z x y, Get v "buffer" = .buffer data bprops ∧
    coord_accepted v "z" z ∧ coord_accepted v "x" x ∧ coord_accepted v "y" y ∧
    t = { z := to_u32 z, x := to_u32 x, y := to_u32 y, data := data }

/-- A request object that the checks of `composite` let through, with the stored window. -/
def maprequest_accepted (req : JSValue) (w : Nat × Nat × Nat) : Prop :=
  IsObject req = true ∧
  ∃ z x y, coord_accepted req "z" z ∧ coord_accepted req "x" x ∧ coord_accepted req "y" y ∧
    w = (to_u32 z, to_u32 x, to_u32 y)

/-- The spec's words for a coordinate (section 6): the property `key` of `obj` is an integer
`≥ 0`. -/
def spec_coord (obj : JSValue) (key : String) : Bool :=
  match Get obj key with
  | .number n =>
    match n.toInt? with
    | some k => decide (0 ≤ k)
    | none => false
  | _ => false

/-- The spec's words for a tile record (section 6): an object that carries a non-null binary
buffer and integer `z`, `x`, `y`, all `≥ 0`. -/
def spec_tile_record (v : JSValue) : Bool :=
  IsObject v &&
  (match Get v "buffer" with
    | .buffer _ _ => true
    | _ => false) &&
  spec_coord v "z" && spec_coord v "x" && spec_coord v "y"

/-- The validation contract in the spec's words (section 6): `tiles` is a non-empty sequence of
tile records and `request` carries integer `z`, `x`, `y`, all `≥ 0`. -/
def spec_contract (info : List JSValue) : Bool :=
  match arg info 0 with
  | .array items _ =>
    !items.isEmpty && items.all spec_tile_record &&
      spec_coord (arg info 1) "z" && spec_coord (arg info 1) "x" && spec_coord (arg info 1) "y"
  | _ => false

/-- The stored 32-bit value `stored` of the coordinate `key` of `obj` is faithful: whenever the
property is a Number with an integer value `k` below `2^32`, `stored` is `k`. -/
def coord_faithful (obj : JSValue) (key : String) (stored : Nat) : Prop :=
  ∀ n k, Get obj key = .number n → n.toInt? = some k → k < 2 ^ 32 → (stored : Int) = k

/-- The JavaScript number with the integer value `k`. -/
def js_int (k : Int) : JSValue := .number (.finite k 0)

/-- A tile record `{buffer, z, x, y}`. -/
def tile_record (data : Bytes) (z x y : JSValue) : JSValue :=
  .object [("buffer", .buffer data []), ("z", z), ("x", x), ("y", y)]

/-- A request object `{z, x, y}`. -/
def zxy_record (z x y : JSValue) : JSValue :=
  .object [("z", z), ("x", x), ("y", y)]

/-! ## A concrete instance of the collaborators -/

/-- The signature test of gzip-hpp (`gzip::is_compressed`): a zlib or gzip header. -/
def gzip_is_compressed : Bytes → Bool
  | a :: b :: _ :: _ =>
    (a == 0x78 && (b == 0x9C || b == 0x01 || b == 0xDA || b == 0x5E)) || (a == 0x1F && b == 0x8B)
  | _ => false

/-- A toy stand-in for a tile parser: every byte is one layer (1 is "roads", 2 is "water",
anything else "poi") with that byte as its only feature; the byte 255 makes the parser throw. -/
def toy_next_layers : Bytes → List (Layer Nat) × Option String
  | [] => ([], none)
  | 255 :: _ => ([], some "unknown pbf field type exception")
  | b :: rest =>
    let name := if b = 1 then "roads" else if b = 2 then "water" else "poi"
    (({ name := name, data := [b], features := [b] } : Layer Nat) :: (toy_next_layers rest).1,
      (toy_next_layers rest).2)

/-- A small instance of `Env`, used to evaluate the definitions on concrete requests.  The
containment test is `within_target`; the payload after a two-byte compression header is taken
as the decompressed data (a third byte 0 makes decompression throw); a feature `f` sits at the
point `(f, f)` (the feature 77 has a geometry that cannot be extracted), scaling multiplies by
the zoom factor, the displacement is `(X mod zf, Y mod zf)` times the tile size, and a feature
is kept when its point lies in the box.  The serializer writes the length of the name of each
entry, and 0 for a dangling view. -/
def toy_env : Env Nat (Int × Int) (Int × Int) where
  within_target := within_target
  is_compressed := gzip_is_compressed
  decompress := fun d =>
    match d with
    | _ :: _ :: 0 :: _ => .error "zlib error"
    | _ :: _ :: rest => .ok rest
    | _ => .error "zlib error"
  next_layers := toy_next_layers
  shift_out_of_range := fun _ => 1
  extract_geometry := fun f =>
    if f = 77 then .error "unknown geometry type" else .ok ((f : Int), (f : Int))
  zoom_coordinates := fun zf p => (p.1 * zf, p.2 * zf)
  displacement := fun zf ts _ x y => (((x : Int) % zf) * ts, ((y : Int) % zf) * ts)
  feature_builder := fun bbox _ p =>
    if bbox.1.1 ≤ p.1 ∧ p.1 < bbox.2.1 ∧ bbox.1.2 ≤ p.2 ∧ p.2 < bbox.2.2 then .ok [p] else .ok []
  serialize := fun b => (b.map (fun o => if o.dangling then 0 else o.name.length), none)

/-- The instance `toy_env` with another outcome of reading freed memory: this serializer finds
the old bytes still in place behind a dangling view, and writes the length of the name for it
too.  On builders without dangling views it is the serializer of `toy_env`. -/
def toy_env_stale : Env Nat (Int × Int) (Int × Int) :=
  { toy_env with serialize := fun b => (b.map (fun o => o.name.length), none) }

/-- A request for the window `(1, 1, 1)` with three tiles: the parent tile `(0, 0, 0)` holding
"roads" and "water", the tile `(1, 1, 1)` itself holding "poi" and "roads", and the unrelated
tile `(1, 0, 0)` holding "water". -/
def sample_baton : BatonType :=
  { tiles := [⟨0, 0, 0, [1, 2]⟩, ⟨1, 1, 1, [3, 1]⟩, ⟨1, 0, 0, [2]⟩], z := 1, x := 1, y := 1 }

/-- A request in which the second tile carries a corrupt compressed payload. -/
def corrupt_baton : BatonType :=
  { tiles := [⟨1, 1, 1, [1]⟩, ⟨1, 1, 1, [0x1F, 0x8B, 0, 5]⟩, ⟨1, 1, 1, [2]⟩], z := 1, x := 1, y := 1 }

/-- A request in which the parent tile `(0, 0, 0)` holds a layer with a feature whose geometry
cannot be extracted, after a layer that can be re-encoded. -/
def bad_geometry_baton : BatonType :=
  { tiles := [⟨1, 1, 1, [1]⟩, ⟨0, 0, 0, [2, 77, 3]⟩, ⟨1, 1, 1, [4]⟩], z := 1, x := 1, y := 1 }

/-- A request for the window `(1, 1, 1)` with two gzip-compressed tiles at that very position:
the first holds "roads", the second "roads" and "water". -/
def compressed_baton : BatonType :=
  { tiles := [⟨1, 1, 1, [0x1F, 0x8B, 1]⟩, ⟨1, 1, 1, [0x1F, 0x8B, 1, 2]⟩], z := 1, x := 1, y := 1 }

/-- A request in which no tile passes the containment test. -/
def unrelated_baton : BatonType :=
  { tiles := [⟨1, 0, 0, [1]⟩, ⟨2, 0, 0, [0x1F, 0x8B, 0, 5]⟩], z := 1, x := 1, y := 1 }

/-- The request `baton` without the tiles that fail the containment test. -/
def without_skipped {F G O : Type} (env : Env F G O) (baton : BatonType) : BatonType :=
  { tiles := baton.tiles.filter (fun t => env.within_target t baton.z baton.x baton.y),
    z := baton.z, x := baton.x, y := baton.y }

/-- The part of the state of `Execute` that reaches `serialize`: `names` and `builder`. -/
def ExecState.core {F O : Type} (st : ExecState F O) : List String × List (OutLayer F O) :=
  (st.names, st.builder)

/-! ## Lemmas on the loops of `Execute` -/

section Loops

variable {F G O : Type}

/-- The `names` vector lists the names of the builder entries, in order. -/
def names_match (st : ExecState F O) : Prop :=
  st.names = st.builder.map OutLayer.name

theorem emit_layer_name {env : Env F G O} {zf : Int} {tz tx ty : Nat} {sto : Storage}
    {l : Layer F} {o : OutLayer F O} (h : emit_layer env zf tz tx ty sto l = .ok o) :
    o.name = l.name := by
  unfold emit_layer at h
  split at h
  · cases h; rfl
  · split at h
    · cases h
    · cases h; rfl

theorem layers_named_append (n : String) (b₁ b₂ : List (OutLayer F O)) :
    layers_named n (b₁ ++ b₂) = layers_named n b₁ ++ layers_named n b₂ := by
  simp [layers_named]

theorem layers_named_of_not_mem {st : ExecState F O} (hm : names_match st) {n : String}
    (hn : n ∉ st.names) : layers_named n st.builder = [] := by
  unfold names_match at hm
  rw [hm] at hn
  simp only [layers_named, List.filter_eq_nil_iff]
  intro o ho hname
  apply hn
  simp only [beq_iff_eq] at hname
  exact List.mem_map.mpr ⟨o, ho, hname⟩

/-- What a successful run of the layer loop does to the state. -/
theorem process_layers_spec (env : Env F G O) (zf : Int) (tz tx ty : Nat) (sto : Storage) :
    ∀ (ls : List (Layer F)) (st st' : ExecState F O),
      process_layers env zf tz tx ty sto st ls = .ok st' → names_match st → st.names.Nodup →
      names_match st' ∧ st'.names.Nodup ∧ st'.cerr = st.cerr ∧
      (∀ n, n ∈ st'.names ↔ n ∈ st.names ∨ ∃ l ∈ ls, l.name = n) ∧
      (∀ n, n ∈ st.names → layers_named n st'.builder = layers_named n st.builder) ∧
      (∀ n l, n ∉ st.names → first_named n ls = some l →
        ∃ o, emit_layer env zf tz tx ty sto l = .ok o ∧ layers_named n st'.builder = [o]) := by
  intro ls
  induction ls with
  | nil =>
    intro st st' h hm hnd
    simp only [process_layers, Except.ok.injEq] at h
    subst h
    refine ⟨hm, hnd, rfl, ?_, ?_, ?_⟩
    · intro n; simp
    · intro n _; rfl
    · intro n l _ hf; simp [first_named] at hf
  | cons l rest ih =>
    intro st st' h hm hnd
    unfold process_layers at h
    by_cases hseen : l.name ∈ st.names
    · rw [if_pos hseen] at h
      obtain ⟨h1, h2, h3, h4, h5, h6⟩ := ih st st' h hm hnd
      refine ⟨h1, h2, h3, ?_, h5, ?_⟩
      · intro n
        rw [h4 n]
        constructor
        · rintro (hn | ⟨l', hl', rfl⟩)
          · exact Or.inl hn
          · exact Or.inr ⟨l', List.mem_cons_of_mem _ hl', rfl⟩
        · rintro (hn | ⟨l', hl', rfl⟩)
          · exact Or.inl hn
          · rcases List.mem_cons.mp hl' with rfl | hl''
            · exact Or.inl hseen
            · exact Or.inr ⟨l', hl'', rfl⟩
      · intro n l' hn hf
        have hne : (l.name == n) = false := by
          rw [beq_eq_false_iff_ne]
          intro heq
          exact hn (heq ▸ hseen)
        simp only [first_named, List.find?_cons, hne] at hf
        exact h6 n l' hn hf
    · rw [if_neg hseen] at h
      cases he : emit_layer env zf tz tx ty sto l with
      | error e => rw [he] at h; cases h
      | ok o =>
        rw [he] at h
        simp only at h
        have hname := emit_layer_name he
        have hm1 : names_match
            (⟨st.names ++ [l.name], st.builder ++ [o], st.cerr⟩ : ExecState F O) := by
          unfold names_match at hm ⊢
          simp [hm, hname]
        have hnd1 : (st.names ++ [l.name]).Nodup := by
          rw [List.nodup_append]
          refine ⟨hnd, List.nodup_singleton _, ?_⟩
          intro a ha ha'
          rw [List.mem_singleton] at ha'
          exact hseen (ha' ▸ ha)
        obtain ⟨h1, h2, h3, h4, h5, h6⟩ := ih _ st' h hm1 hnd1
        refine ⟨h1, h2, h3, ?_, ?_, ?_⟩
        · intro n
          rw [h4 n]
          show n ∈ st.names ++ [l.name] ∨ _ ↔ _
          rw [List.mem_append, List.mem_singleton]
          constructor
          · rintro ((hn | rfl) | ⟨l', hl', rfl⟩)
            · exact Or.inl hn
            · exact Or.inr ⟨l, List.mem_cons_self _ _, rfl⟩
            · exact Or.inr ⟨l', List.mem_cons_of_mem _ hl', rfl⟩
          · rintro (hn | ⟨l', hl', rfl⟩)
            · exact Or.inl (Or.inl hn)
            · rcases List.mem_cons.mp hl' with rfl | hl''
              · exact Or.inl (Or.inr rfl)
              · exact Or.inr ⟨l', hl'', rfl⟩
        · intro n hn
          rw [h5 n (List.mem_append_left _ hn), layers_named_append]
          have hne : (o.name == n) = false := by
            rw [beq_eq_false_iff_ne, hname]
            intro heq
            exact hseen (heq ▸ hn)
          simp [layers_named, hne]
        · intro n l' hn hf
          by_cases heq : l.name = n
          · have hbeq : (l.name == n) = true := by simp [heq]
            simp only [first_named, List.find?_cons, hbeq, Option.some.injEq] at hf
            subst hf
            refine ⟨o, he, ?_⟩
            rw [h5 n (by simp [heq]), layers_named_append, layers_named_of_not_mem hm hn]
            simp [layers_named, hname, heq]
          · have hbeq : (l.name == n) = false := by simp [heq]
            simp only [first_named, List.find?_cons, hbeq] at hf
            have hn1 : n ∉ st.names ++ [l.name] := by
              simp only [List.mem_append, List.mem_singleton, not_or]
              exact ⟨hn, fun h => heq h.symm⟩
            exact h6 n l' hn1 hf

theorem first_named_isSome_iff (n : String) (ls : List (Layer F)) :
    (∃ l, first_named n ls = some l) ↔ ∃ l ∈ ls, l.name = n := by
  unfold first_named
  constructor
  · rintro ⟨l, hl⟩
    refine ⟨l, List.mem_of_find?_eq_some hl, ?_⟩
    have := List.find?_some hl
    simpa using this
  · rintro ⟨l, hl, hn⟩
    cases hf : ls.find? (fun l => l.name == n) with
    | some l' => exact ⟨l', rfl⟩
    | none =>
      rw [List.find?_eq_none] at hf
      have := hf l hl
      simp [hn] at this

theorem any_named_iff (n : String) (ls : List (Layer F)) :
    ls.any (fun l => l.name == n) = true ↔ ∃ l ∈ ls, l.name = n := by
  simp [List.any_eq_true]

/-- What a successful run of the loop body does to the state, for one tile. -/
theorem process_tile_spec (env : Env F G O) (tz tx ty : Nat) (t : TileObject)
    (st st' : ExecState F O) (h : process_tile env tz tx ty st t = .ok st')
    (hm : names_match st) (hnd : st.names.Nodup) :
    names_match st' ∧ st'.names.Nodup ∧
    (∀ n, n ∈ st'.names ↔
      n ∈ st.names ∨ (env.within_target t tz tx ty = true ∧ ∃ l ∈ tile_layers env t, l.name = n)) ∧
    (∀ n, n ∈ st.names → layers_named n st'.builder = layers_named n st.builder) ∧
    (∀ n l, n ∉ st.names → env.within_target t tz tx ty = true →
      first_named n (tile_layers env t) = some l →
      ∃ o, emit_layer env (zoom_factor env.shift_out_of_range tz t.z) tz tx ty
          (tile_storage env t) l = .ok o ∧
        layers_named n st'.builder = [o]) := by
  unfold process_tile at h
  by_cases hw : env.within_target t tz tx ty = true
  · rw [if_pos hw] at h
    cases hv : tile_view env t with
    | error e => rw [hv] at h; cases h
    | ok view =>
      rw [hv] at h
      simp only at h
      cases hp : process_layers env (zoom_factor env.shift_out_of_range tz t.z) tz tx ty
          (tile_storage env t) st (env.next_layers view).1 with
      | error e => rw [hp] at h; cases h
      | ok st1 =>
        rw [hp] at h
        simp only at h
        cases hx : (env.next_layers view).2 with
        | some e => rw [hx] at h; cases h
        | none =>
          rw [hx] at h
          simp only [Except.ok.injEq] at h
          subst h
          have hl : tile_layers env t = (env.next_layers view).1 := by
            simp [tile_layers, hv]
          obtain ⟨h1, h2, _, h4, h5, h6⟩ :=
            process_layers_spec env _ tz tx ty _ _ st st1 hp hm hnd
          refine ⟨h1, h2, ?_, h5, ?_⟩
          · intro n
            rw [h4 n, hl]
            simp [hw]
          · intro n l hn _ hf
            rw [hl] at hf
            exact h6 n l hn hf
  · rw [if_neg hw] at h
    simp only [Except.ok.injEq] at h
    subst h
    refine ⟨hm, hnd, ?_, ?_, ?_⟩
    · intro n; simp [hw]
    · intro n _; rfl
    · intro n l _ hw'; exact absurd hw' hw

/-- What a successful run of the loop over the tiles does to the state. -/
theorem process_tiles_spec (env : Env F G O) (tz tx ty : Nat) :
    ∀ (tiles : List TileObject) (st st' : ExecState F O),
      process_tiles env tz tx ty st tiles = .ok st' → names_match st → st.names.Nodup →
      names_match st' ∧ st'.names.Nodup ∧
      (∀ n, n ∈ st'.names ↔ n ∈ st.names ∨
        ∃ t ∈ tiles, env.within_target t tz tx ty = true ∧ ∃ l ∈ tile_layers env t, l.name = n) ∧
      (∀ n, n ∈ st.names → layers_named n st'.builder = layers_named n st.builder) ∧
      (∀ n t, n ∉ st.names → first_tile_with env tz tx ty n tiles = some t →
        ∃ l o, first_named n (tile_layers env t) = some l ∧
          emit_layer env (zoom_factor env.shift_out_of_range tz t.z) tz tx ty
            (tile_storage env t) l = .ok o ∧
          layers_named n st'.builder = [o]) := by
  intro tiles
  induction tiles with
  | nil =>
    intro st st' h hm hnd
    simp only [process_tiles, Except.ok.injEq] at h
    subst h
    refine ⟨hm, hnd, ?_, ?_, ?_⟩
    · intro n; simp
    · intro n _; rfl
    · intro n t _ hf; simp [first_tile_with] at hf
  | cons t rest ih =>
    intro st st' h hm hnd
    unfold process_tiles at h
    cases ht : process_tile env tz tx ty st t with
    | error e => rw [ht] at h; cases h
    | ok st1 =>
      rw [ht] at h
      simp only at h
      obtain ⟨a1, a2, a3, a4, a5⟩ := process_tile_spec env tz tx ty t st st1 ht hm hnd
      obtain ⟨b1, b2, b3, b4, b5⟩ := ih st1 st' h a1 a2
      refine ⟨b1, b2, ?_, ?_, ?_⟩
      · intro n
        rw [b3 n, a3 n]
        constructor
        · rintro ((hn | ⟨hw, hl⟩) | ⟨t', ht', hw, hl⟩)
          · exact Or.inl hn
          · exact Or.inr ⟨t, List.mem_cons_self _ _, hw, hl⟩
          · exact Or.inr ⟨t', List.mem_cons_of_mem _ ht', hw, hl⟩
        · rintro (hn | ⟨t', ht', hw, hl⟩)
          · exact Or.inl (Or.inl hn)
          · rcases List.mem_cons.mp ht' with rfl | ht''
            · exact Or.inl (Or.inr ⟨hw, hl⟩)
            · exact Or.inr ⟨t', ht'', hw, hl⟩
      · intro n hn
        rw [b4 n ((a3 n).mpr (Or.inl hn)), a4 n hn]
      · intro n t' hn hf
        by_cases hc : (env.within_target t tz tx ty &&
            (tile_layers env t).any (fun l => l.name == n)) = true
        · simp only [first_tile_with, List.find?_cons, hc, Option.some.injEq] at hf
          subst hf
          rw [Bool.and_eq_true] at hc
          obtain ⟨hw, hany⟩ := hc
          have hex := (any_named_iff n _).mp hany
          obtain ⟨l, hl⟩ := (first_named_isSome_iff n _).mpr hex
          obtain ⟨o, ho, hnamed⟩ := a5 n l hn hw hl
          refine ⟨l, o, hl, ho, ?_⟩
          rw [b4 n ((a3 n).mpr (Or.inr ⟨hw, hex⟩)), hnamed]
        · have hc' : (env.within_target t tz tx ty &&
              (tile_layers env t).any (fun l => l.name == n)) = false := by
            simpa using hc
          simp only [first_tile_with, List.find?_cons, hc'] at hf
          have hn1 : n ∉ st1.names := by
            rw [a3 n]
            rintro (h' | ⟨hw, hex⟩)
            · exact hn h'
            · apply hc
              rw [Bool.and_eq_true]
              exact ⟨hw, (any_named_iff n _).mpr hex⟩
          exact b5 n t' hn1 hf

end Loops

/-! ## The compositing task: layer de-duplication -/

section Claims

variable {F G O : Type}

theorem names_match_init : names_match (ExecState.init : ExecState F O) := rfl

theorem Execute_success (env : Env F G O) (baton : BatonType)
    (h : (Execute env baton).errmsg = none) :
    ∃ st, process_tiles env baton.z baton.x baton.y ExecState.init baton.tiles = .ok st ∧
      (env.serialize st.builder).2 = none ∧
      Execute env baton = { errmsg := none, output_buffer := (env.serialize st.builder).1 } := by
  unfold Execute at h ⊢
  cases hp : process_tiles env baton.z baton.x baton.y ExecState.init baton.tiles with
  | error e => rw [hp] at h; cases h
  | ok st =>
    rw [hp] at h
    simp only at h
    exact ⟨st, rfl, h, by simp [h]⟩

/-- First-write-wins at the level of the builder.  When `Execute` succeeds, the builder handed
to `serialize` has, for every layer name `n`, no entry named `n` if no tile that passes the
containment test contains a layer named `n`, and otherwise exactly one entry named `n`: the one
emitted for the first layer named `n` of the first such tile, in caller order.  On the fast
path that entry is a view, which may be dangling. -/
theorem builder_first_write_wins (env : Env F G O) (baton : BatonType)
    (h : (Execute env baton).errmsg = none) :
    ∃ st, process_tiles env baton.z baton.x baton.y ExecState.init baton.tiles = .ok st ∧
      (Execute env baton).output_buffer = (env.serialize st.builder).1 ∧
      ∀ n,
        (first_tile_with env baton.z baton.x baton.y n baton.tiles = none →
          layers_named n st.builder = []) ∧
        (∀ t, first_tile_with env baton.z baton.x baton.y n baton.tiles = some t →
          ∃ l o, first_named n (tile_layers env t) = some l ∧
            emit_layer env (zoom_factor env.shift_out_of_range baton.z t.z)
              baton.z baton.x baton.y (tile_storage env t) l = .ok o ∧
            layers_named n st.builder = [o]) := by
  obtain ⟨st, hp, _, he⟩ := Execute_success env baton h
  refine ⟨st, hp, by rw [he], ?_⟩
  obtain ⟨h1, _, h3, _, h5⟩ :=
    process_tiles_spec env baton.z baton.x baton.y baton.tiles _ st hp names_match_init
      List.nodup_nil
  intro n
  constructor
  · intro hnone
    apply layers_named_of_not_mem h1
    rw [h3 n]
    rintro (hn | ⟨t, ht, hw, hl⟩)
    · simp [ExecState.init] at hn
    · have := List.find?_eq_none.mp hnone t ht
      apply this
      rw [Bool.and_eq_true]
      exact ⟨hw, (any_named_iff n _).mpr hl⟩
  · intro t ht
    exact h5 n t (by simp [ExecState.init]) ht

/-- C1 (the code at a failing input): two gzip-compressed tiles at the position of the output
window, the first with a layer "roads", the second with "roads" and "water".  The loop ends
normally, and the builder that `serialize` then reads holds, for "roads", a single entry: the
view added for the first tile's layer, which points into the decompression buffer of the first
iteration.  That buffer was destroyed when the iteration ended, so what `serialize` writes for
"roads" is what the freed memory holds by then, not necessarily the first tile's layer: two
serializers that agree on every builder without dangling views give different outputs here. -/
theorem first_layer_view_dangles :
    process_tiles toy_env 1 1 1 ExecState.init compressed_baton.tiles =
      .ok ⟨["roads", "water"],
        [.existing ⟨"roads", [1], [1]⟩ .scratch, .existing ⟨"water", [2], [2]⟩ .scratch], []⟩ ∧
    layers_named "roads"
        ([.existing ⟨"roads", [1], [1]⟩ .scratch, .existing ⟨"water", [2], [2]⟩ .scratch] :
          List (OutLayer Nat (Int × Int))) =
      [.existing ⟨"roads", [1], [1]⟩ .scratch] ∧
    (OutLayer.existing ⟨"roads", [1], [1]⟩ .scratch : OutLayer Nat (Int × Int)).dangling = true ∧
    (Execute toy_env compressed_baton).errmsg = none ∧
    (∀ b : List (OutLayer Nat (Int × Int)), b.all (fun o => !o.dangling) = true →
      toy_env.serialize b = toy_env_stale.serialize b) ∧
    Execute toy_env compressed_baton ≠ Execute toy_env_stale compressed_baton := by
  refine ⟨rfl, by decide, rfl, by decide, ?_, by decide⟩
  intro b hb
  simp only [toy_env, toy_env_stale, Prod.mk.injEq, and_true]
  apply List.map_congr_left
  intro o ho
  have := List.all_eq_true.mp hb o ho
  simp only [Bool.not_eq_true', ] at this
  simp [this]

/-- C2: when `Execute` succeeds, the names of the layers added to the tile builder are pairwise
distinct, and each of them is the name of a layer of an input tile (one that passes the
containment test).  This holds for every request, hence for every request with at least one
tile of which at least one passes the containment test. -/
theorem builder_names_distinct (env : Env F G O) (baton : BatonType)
    (h : (Execute env baton).errmsg = none) :
    ∃ st, process_tiles env baton.z baton.x baton.y ExecState.init baton.tiles = .ok st ∧
      (Execute env baton).output_buffer = (env.serialize st.builder).1 ∧
      (st.builder.map OutLayer.name).Nodup ∧
      ∀ n ∈ st.builder.map OutLayer.name,
        ∃ t ∈ baton.tiles, env.within_target t baton.z baton.x baton.y = true ∧
          ∃ l ∈ tile_layers env t, l.name = n := by
  obtain ⟨st, hp, _, he⟩ := Execute_success env baton h
  refine ⟨st, hp, by rw [he], ?_⟩
  obtain ⟨h1, h2, h3, _, _⟩ :=
    process_tiles_spec env baton.z baton.x baton.y baton.tiles _ st hp names_match_init
      List.nodup_nil
  unfold names_match at h1
  rw [← h1]
  refine ⟨h2, ?_⟩
  intro n hn
  rcases (h3 n).mp hn with hn' | hex
  · simp [ExecState.init] at hn'
  · exact hex

theorem builder_names_distinct_witness :
    (∃ t ∈ sample_baton.tiles, toy_env.within_target t 1 1 1 = true) ∧
    (Execute toy_env sample_baton).errmsg = none ∧
    ∃ st, process_tiles toy_env 1 1 1 ExecState.init sample_baton.tiles = .ok st ∧
      (Execute toy_env sample_baton).output_buffer = (toy_env.serialize st.builder).1 ∧
      (st.builder.map OutLayer.name).Nodup ∧
      ∀ n ∈ st.builder.map OutLayer.name,
        ∃ t ∈ sample_baton.tiles, toy_env.within_target t 1 1 1 = true ∧
          ∃ l ∈ tile_layers toy_env t, l.name = n :=
  ⟨⟨⟨0, 0, 0, [1, 2]⟩, by decide, by decide⟩, by decide,
    builder_names_distinct toy_env sample_baton (by decide)⟩

/-! ## The compositing task: the fast path -/

theorem sub_u32_self (a : Nat) : sub_u32 a a = 0 := by
  unfold sub_u32
  norm_num
  omega

theorem zoom_factor_self (f : Nat → Int) (z : Nat) : zoom_factor f z z = 1 := by
  unfold zoom_factor
  rw [sub_u32_self]
  unfold shl_one
  rw [if_pos (by decide)]
  decide

theorem process_layers_fast (env : Env F G O) (tz tx ty : Nat) (sto : Storage) :
    ∀ (ls : List (Layer F)) (st : ExecState F O),
      process_layers env 1 tz tx ty sto st ls =
        .ok ⟨st.names ++ (fresh_layers st.names ls).map (fun l => l.name),
          st.builder ++ (fresh_layers st.names ls).map (fun l => OutLayer.existing l sto),
          st.cerr⟩ := by
  intro ls
  induction ls with
  | nil => intro st; simp [process_layers, fresh_layers]
  | cons l rest ih =>
    intro st
    unfold process_layers
    by_cases hseen : l.name ∈ st.names
    · rw [if_pos hseen, ih st]
      simp [fresh_layers, hseen]
    · rw [if_neg hseen]
      simp only [emit_layer, if_true]
      rw [ih]
      simp [fresh_layers, hseen]

theorem fresh_layers_eq_self :
    ∀ (ls : List (Layer F)) (seen : List String),
      (ls.map (fun l => l.name)).Nodup → (∀ l ∈ ls, l.name ∉ seen) → fresh_layers seen ls = ls := by
  intro ls
  induction ls with
  | nil => intro seen _ _; rfl
  | cons l rest ih =>
    intro seen hnd hns
    rw [List.map_cons, List.nodup_cons] at hnd
    have hl : l.name ∉ seen := hns l (List.mem_cons_self _ _)
    unfold fresh_layers
    rw [if_neg hl, ih (seen ++ [l.name]) hnd.2]
    intro l' hl' hmem
    rw [List.mem_append, List.mem_singleton] at hmem
    rcases hmem with hmem | hmem
    · exact hns l' (List.mem_cons_of_mem _ hl') hmem
    · exact hnd.1 (List.mem_map.mpr ⟨l', hl', hmem⟩)

/-- The containment test of the spec accepts a tile for the window with its own `z`, `x`, `y`. -/
theorem within_target_self (t : TileObject) : within_target t t.z t.x t.y = true := by
  simp [within_target]

/-- C3 (as stated, refuted): the single uncompressed tile `(1, 1, 1)` holds two layers named
"poi"; composited into the window `(1, 1, 1)`, only the first of them reaches the builder, so
the tile's layers are not all reproduced. -/
theorem repeated_name_dropped :
    toy_env.next_layers [3, 4] = ([⟨"poi", [3], [3]⟩, ⟨"poi", [4], [4]⟩], none) ∧
    process_tiles toy_env 1 1 1 ExecState.init [⟨1, 1, 1, [3, 4]⟩] =
      .ok ⟨["poi"], [.existing ⟨"poi", [3], [3]⟩ .caller], []⟩ ∧
    ([.existing ⟨"poi", [3], [3]⟩ .caller] : List (OutLayer Nat (Int × Int))) ≠
      [.existing ⟨"poi", [3], [3]⟩ .caller, .existing ⟨"poi", [4], [4]⟩ .caller] := by
  refine ⟨by decide, rfl, by decide⟩

/-- C3 (amended): the zoom-factor-1 fast path.  For a tile `t` that passes the containment test
for a window at its own zoom, whose view is obtained and whose layers `ls` are parsed without
an exception, the loop body adds to the builder exactly the layers of `ls` whose name has not
been seen before, each by `add_existing_layer` as a view on the unchanged layer, in order: the
result does not depend on geometry extraction, scaling, displacement or clipping.
Consequently, compositing a single uncompressed tile `t` into the window `(t.z, t.x, t.y)`
hands to `serialize` views, into the caller's buffer, on the layers of `t` unchanged and in
order, without those whose name repeats the name of an earlier layer of `t`; these are all the
layers of `t` when their names are distinct. -/
theorem fast_path_copies_layers (env : Env F G O) (t : TileObject) (view : Bytes)
    (ls : List (Layer F)) (hv : tile_view env t = .ok view)
    (hp : env.next_layers view = (ls, none)) :
    (∀ tx ty st, env.within_target t t.z tx ty = true →
      process_tile env t.z tx ty st t =
        .ok ⟨st.names ++ (fresh_layers st.names ls).map (fun l => l.name),
          st.builder ++
            (fresh_layers st.names ls).map (fun l => OutLayer.existing l (tile_storage env t)),
          st.cerr⟩) ∧
    (env.is_compressed t.data = false → env.within_target t t.z t.x t.y = true →
      view = t.data ∧
      process_tiles env t.z t.x t.y ExecState.init [t] =
        .ok ⟨(fresh_layers [] ls).map (fun l => l.name),
          (fresh_layers [] ls).map (fun l => OutLayer.existing l .caller), []⟩ ∧
      Execute env ⟨[t], t.z, t.x, t.y⟩ =
        ⟨(env.serialize ((fresh_layers [] ls).map (fun l => OutLayer.existing l .caller))).2,
          (env.serialize ((fresh_layers [] ls).map (fun l => OutLayer.existing l .caller))).1⟩ ∧
      ((ls.map (fun l => l.name)).Nodup → fresh_layers [] ls = ls)) := by
  have step : ∀ tx ty st, env.within_target t t.z tx ty = true →
      process_tile env t.z tx ty st t =
        .ok ⟨st.names ++ (fresh_layers st.names ls).map (fun l => l.name),
          st.builder ++
            (fresh_layers st.names ls).map (fun l => OutLayer.existing l (tile_storage env t)),
          st.cerr⟩ := by
    intro tx ty st hw
    unfold process_tile
    rw [if_pos hw, hv]
    simp only [zoom_factor_self, hp, process_layers_fast]
  refine ⟨step, ?_⟩
  intro hc hw
  have hsto : tile_storage env t = .caller := by simp [tile_storage, hc]
  have hview : view = t.data := by
    simp only [tile_view, hc, Bool.false_eq_true, if_false, Except.ok.injEq] at hv
    exact hv.symm
  have hloop : process_tiles env t.z t.x t.y ExecState.init [t] =
      .ok ⟨(fresh_layers [] ls).map (fun l => l.name),
        (fresh_layers [] ls).map (fun l => OutLayer.existing l .caller), []⟩ := by
    simp [process_tiles, step t.x t.y _ hw, ExecState.init, hsto]
  refine ⟨hview, hloop, ?_, ?_⟩
  · simp [Execute, hloop]
  · intro hnd
    exact fresh_layers_eq_self ls [] hnd (by simp)

theorem fast_path_copies_layers_witness :
    tile_view toy_env ⟨1, 1, 1, [3, 1, 4]⟩ = .ok [3, 1, 4] ∧
    toy_env.next_layers [3, 1, 4] =
      ([⟨"poi", [3], [3]⟩, ⟨"roads", [1], [1]⟩, ⟨"poi", [4], [4]⟩], none) ∧
    toy_env.is_compressed [3, 1, 4] = false ∧
    toy_env.within_target ⟨1, 1, 1, [3, 1, 4]⟩ 1 1 1 = true ∧
    Execute toy_env ⟨[⟨1, 1, 1, [3, 1, 4]⟩], 1, 1, 1⟩ =
      ⟨(toy_env.serialize [.existing ⟨"poi", [3], [3]⟩ .caller,
          .existing ⟨"roads", [1], [1]⟩ .caller]).2,
        (toy_env.serialize [.existing ⟨"poi", [3], [3]⟩ .caller,
          .existing ⟨"roads", [1], [1]⟩ .caller]).1⟩ :=
  ⟨rfl, by decide, by decide, by decide,
    ((fast_path_copies_layers toy_env ⟨1, 1, 1, [3, 1, 4]⟩ [3, 1, 4]
      [⟨"poi", [3], [3]⟩, ⟨"roads", [1], [1]⟩, ⟨"poi", [4], [4]⟩] rfl (by decide)).2
        (by decide) (by decide)).2.2.1⟩

/-! ## The zoom factor -/

/-- C4 (as stated, refuted): for the tile zoom `0` and the output zoom `31`, both accepted by
validation, `1 << 31` is the `int` `-2147483648`: it is not `2^31` and it is not `≥ 1`. -/
theorem zoom_factor_overflow :
    zoom_factor (fun _ => 1) 31 0 = -2147483648 ∧
    ¬ (zoom_factor (fun _ => 1) 31 0 = 2 ^ (31 - 0) ∧ 1 ≤ zoom_factor (fun _ => 1) 31 0) := by
  decide

theorem to_int32_pow (s : Nat) (hs : s ≤ 30) : to_int32 (2 ^ s) = 2 ^ s := by
  unfold to_int32
  interval_cases s <;> norm_num

/-- C4 (amended): for a tile zoom `z` and an output zoom `Z` with `z ≤ Z`, both 32-bit unsigned
values, and `Z - z ≤ 30`, the `int` zoom factor `1 << (Z - z)` equals `2^(Z - z)` and is
`≥ 1`. -/
theorem zoom_factor_pow (f : Nat → Int) (z Z : Nat) (hle : z ≤ Z) (hZ : Z < 2 ^ 32)
    (hd : Z - z ≤ 30) :
    zoom_factor f Z z = 2 ^ (Z - z) ∧ 1 ≤ zoom_factor f Z z := by
  have hsub : sub_u32 Z z = Z - z := by
    unfold sub_u32
    norm_num at hZ ⊢
    omega
  have hval : zoom_factor f Z z = 2 ^ (Z - z) := by
    unfold zoom_factor shl_one
    rw [hsub, if_pos (by omega), to_int32_pow _ hd]
  refine ⟨hval, ?_⟩
  rw [hval]
  exact one_le_pow₀ (by norm_num)

theorem zoom_factor_pow_witness :
    (5 : Nat) ≤ 7 ∧ (7 : Nat) < 2 ^ 32 ∧ 7 - 5 ≤ 30 ∧
    zoom_factor (fun _ => 1) 7 5 = 2 ^ (7 - 5) ∧ 1 ≤ zoom_factor (fun _ => 1) 7 5 :=
  ⟨by decide, by decide, by decide,
    zoom_factor_pow (fun _ => 1) 5 7 (by decide) (by decide) (by decide)⟩

/-! ## The compositing task: failures -/

theorem process_tiles_append (env : Env F G O) (tz tx ty : Nat) :
    ∀ (pre rest : List TileObject) (st : ExecState F O),
      process_tiles env tz tx ty st (pre ++ rest) =
        match process_tiles env tz tx ty st pre with
        | .error e => .error e
        | .ok st' => process_tiles env tz tx ty st' rest := by
  intro pre
  induction pre with
  | nil => intro rest st; simp [process_tiles]
  | cons t pre ih =>
    intro rest st
    simp only [List.cons_append, process_tiles]
    cases process_tile env tz tx ty st t with
    | error e => rfl
    | ok st1 => exact ih rest st1

theorem build_features_append (env : Env F G O) (zf : Int) (tz tx ty : Nat) :
    ∀ (pre fs : List F),
      build_features env zf tz tx ty (pre ++ fs) =
        match build_features env zf tz tx ty pre with
        | .error e => .error e
        | .ok outs =>
          match build_features env zf tz tx ty fs with
          | .error e => .error e
          | .ok more => .ok (outs ++ more) := by
  intro pre
  induction pre with
  | nil =>
    intro fs
    simp only [List.nil_append, build_features, List.nil_append]
    cases build_features env zf tz tx ty fs <;> rfl
  | cons f pre ih =>
    intro fs
    simp only [List.cons_append, build_features]
    cases env.extract_geometry f with
    | error e => rfl
    | ok g =>
      simp only
      cases env.feature_builder (clip_box env zf tz tx ty) f (env.zoom_coordinates zf g) with
      | error e => rfl
      | ok out =>
        simp only
        have ih' := ih fs
        rw [show pre.append fs = pre ++ fs from rfl, ih']
        cases build_features env zf tz tx ty pre with
        | error e => rfl
        | ok outs =>
          simp only
          cases build_features env zf tz tx ty fs with
          | error e => rfl
          | ok more => simp

theorem process_layers_append (env : Env F G O) (zf : Int) (tz tx ty : Nat) (sto : Storage) :
    ∀ (lpre ls : List (Layer F)) (st : ExecState F O),
      process_layers env zf tz tx ty sto st (lpre ++ ls) =
        match process_layers env zf tz tx ty sto st lpre with
        | .error e => .error e
        | .ok st1 => process_layers env zf tz tx ty sto st1 ls := by
  intro lpre
  induction lpre with
  | nil => intro ls st; simp [process_layers]
  | cons l lpre ih =>
    intro ls st
    simp only [List.cons_append, process_layers]
    by_cases hseen : l.name ∈ st.names
    · simp only [hseen, if_true]
      exact ih ls st
    · simp only [hseen, if_false]
      cases emit_layer env zf tz tx ty sto l with
      | error e => rfl
      | ok o => exact ih ls _

/-- An error raised by the loop body on a tile, after the tiles before it were processed, is
the outcome of the whole task. -/
theorem tile_error_is_final (env : Env F G O) (baton : BatonType) (pre rest : List TileObject)
    (t : TileObject) (st : ExecState F O) (e : String) (htiles : baton.tiles = pre ++ t :: rest)
    (hpre : process_tiles env baton.z baton.x baton.y ExecState.init pre = .ok st)
    (ht : process_tile env baton.z baton.x baton.y st t = .error e) :
    Execute env baton = ⟨some e, []⟩ ∧ run_worker env baton = ⟨some e, none⟩ := by
  have hloop : process_tiles env baton.z baton.x baton.y ExecState.init baton.tiles
      = .error e := by
    rw [htiles, process_tiles_append, hpre]
    simp only [process_tiles, ht]
  have hex : Execute env baton = ⟨some e, []⟩ := by
    simp [Execute, hloop]
  exact ⟨hex, by simp [run_worker, WorkComplete, hex, HandleErrorCallback]⟩

/-- C5: no partial output on failure.  The callback receives exactly one of an error message
and a buffer.  Let the tiles before `t` be processed without error and let `t` pass the
containment test.  If `t` is compressed and `decompress` throws `e`; or if the parser throws
`e` after yielding layers that were processed without error; or if, for a layer with a new name
on the re-encoding path, `extract_geometry` or `feature_builder` throws `e` on a feature while
the earlier layers and the earlier features of that layer were processed without error: then,
whatever tiles follow `t`, `Execute` ends with the error message `e` and an empty output
string, and the callback receives `e` and no buffer.  The same outcome `e` results when
`serialize` throws `e`, even if it had already written bytes. -/
theorem failure_delivers_no_buffer (env : Env F G O) (baton : BatonType) :
    ((∃ msg, (Execute env baton).errmsg = some msg ∧ run_worker env baton = ⟨some msg, none⟩) ∨
      (∃ buf, Execute env baton = ⟨none, buf⟩ ∧ run_worker env baton = ⟨none, some buf⟩)) ∧
    (∀ pre t rest st e, baton.tiles = pre ++ t :: rest →
      process_tiles env baton.z baton.x baton.y ExecState.init pre = .ok st →
      env.within_target t baton.z baton.x baton.y = true →
      env.is_compressed t.data = true → env.decompress t.data = .error e →
      Execute env baton = ⟨some e, []⟩ ∧ run_worker env baton = ⟨some e, none⟩) ∧
    (∀ pre t rest st view st1 e, baton.tiles = pre ++ t :: rest →
      process_tiles env baton.z baton.x baton.y ExecState.init pre = .ok st →
      env.within_target t baton.z baton.x baton.y = true →
      tile_view env t = .ok view →
      process_layers env (zoom_factor env.shift_out_of_range baton.z t.z) baton.z baton.x baton.y
        (tile_storage env t) st (env.next_layers view).1 = .ok st1 →
      (env.next_layers view).2 = some e →
      Execute env baton = ⟨some e, []⟩ ∧ run_worker env baton = ⟨some e, none⟩) ∧
    (∀ pre t rest st view lpre l lrest st1 fpre f frest outs e,
      baton.tiles = pre ++ t :: rest →
      process_tiles env baton.z baton.x baton.y ExecState.init pre = .ok st →
      env.within_target t baton.z baton.x baton.y = true →
      tile_view env t = .ok view →
      (env.next_layers view).1 = lpre ++ l :: lrest →
      process_layers env (zoom_factor env.shift_out_of_range baton.z t.z) baton.z baton.x baton.y
        (tile_storage env t) st lpre = .ok st1 →
      l.name ∉ st1.names →
      zoom_factor env.shift_out_of_range baton.z t.z ≠ 1 →
      l.features = fpre ++ f :: frest →
      build_features env (zoom_factor env.shift_out_of_range baton.z t.z) baton.z baton.x baton.y
        fpre = .ok outs →
      (env.extract_geometry f = .error e ∨
        ∃ g, env.extract_geometry f = .ok g ∧
          env.feature_builder
            (clip_box env (zoom_factor env.shift_out_of_range baton.z t.z) baton.z baton.x baton.y)
            f (env.zoom_coordinates (zoom_factor env.shift_out_of_range baton.z t.z) g) =
              .error e) →
      Execute env baton = ⟨some e, []⟩ ∧ run_worker env baton = ⟨some e, none⟩) ∧
    (∀ st e, process_tiles env baton.z baton.x baton.y ExecState.init baton.tiles = .ok st →
      (env.serialize st.builder).2 = some e →
      (Execute env baton).errmsg = some e ∧ run_worker env baton = ⟨some e, none⟩) := by
  refine ⟨?_, ?_, ?_, ?_, ?_⟩
  · unfold run_worker WorkComplete
    cases hm : (Execute env baton).errmsg with
    | some msg => exact Or.inl ⟨msg, rfl, rfl⟩
    | none =>
      refine Or.inr ⟨(Execute env baton).output_buffer, ?_, rfl⟩
      cases hx : Execute env baton with
      | mk m b => rw [hx] at hm; simp only at hm; subst hm; rfl
  · intro pre t rest st e htiles hpre hw hc hd
    apply tile_error_is_final env baton pre rest t st e htiles hpre
    simp [process_tile, hw, tile_view, hc, hd]
  · intro pre t rest st view st1 e htiles hpre hw hv hl hx
    apply tile_error_is_final env baton pre rest t st e htiles hpre
    simp [process_tile, hw, hv, hl, hx]
  · intro pre t rest st view lpre l lrest st1 fpre f frest outs e htiles hpre hw hv hls hlpre
      hnew hzf hfs hfpre hbad
    apply tile_error_is_final env baton pre rest t st e htiles hpre
    have hfeat : build_features env (zoom_factor env.shift_out_of_range baton.z t.z)
        baton.z baton.x baton.y l.features = .error e := by
      rw [hfs, build_features_append, hfpre]
      rcases hbad with hx | ⟨g, hg, hb⟩
      · simp [build_features, hx]
      · simp [build_features, hg, hb]
    have hemit : emit_layer env (zoom_factor env.shift_out_of_range baton.z t.z)
        baton.z baton.x baton.y (tile_storage env t) l = .error e := by
      simp [emit_layer, hzf, hfeat]
    have hlayers : process_layers env (zoom_factor env.shift_out_of_range baton.z t.z)
        baton.z baton.x baton.y (tile_storage env t) st (env.next_layers view).1 = .error e := by
      rw [hls, process_layers_append, hlpre]
      simp [process_layers, hnew, hemit]
    simp [process_tile, hw, hv, hlayers]
  · intro st e hloop hser
    have hex : (Execute env baton).errmsg = some e := by
      simp [Execute, hloop, hser]
    exact ⟨hex, by simp [run_worker, WorkComplete, hex, HandleErrorCallback]⟩

theorem failure_delivers_no_buffer_witness :
    (toy_env.is_compressed [0x1F, 0x8B, 0, 5] = true ∧
      toy_env.decompress [0x1F, 0x8B, 0, 5] = .error "zlib error" ∧
      Execute toy_env corrupt_baton = ⟨some "zlib error", []⟩ ∧
      run_worker toy_env corrupt_baton = ⟨some "zlib error", none⟩) ∧
    (toy_env.extract_geometry 77 = .error "unknown geometry type" ∧
      Execute toy_env bad_geometry_baton = ⟨some "unknown geometry type", []⟩ ∧
      run_worker toy_env bad_geometry_baton = ⟨some "unknown geometry type", none⟩) :=
  ⟨⟨by decide, rfl,
    (failure_delivers_no_buffer toy_env corrupt_baton).2.1 [⟨1, 1, 1, [1]⟩]
      ⟨1, 1, 1, [0x1F, 0x8B, 0, 5]⟩ [⟨1, 1, 1, [2]⟩]
      ⟨["roads"], [.existing ⟨"roads", [1], [1]⟩ .caller], []⟩ "zlib error" rfl rfl
      (by decide) (by decide) rfl⟩,
   ⟨rfl,
    (failure_delivers_no_buffer toy_env bad_geometry_baton).2.2.2.1 [⟨1, 1, 1, [1]⟩]
      ⟨0, 0, 0, [2, 77, 3]⟩ [⟨1, 1, 1, [4]⟩]
      ⟨["roads"], [.existing ⟨"roads", [1], [1]⟩ .caller], []⟩ [2, 77, 3]
      [⟨"water", [2], [2]⟩] ⟨"poi", [77], [77]⟩ [⟨"poi", [3], [3]⟩]
      ⟨["roads", "water"],
        [.existing ⟨"roads", [1], [1]⟩ .caller, .built ⟨"water", [2], [2]⟩ []], []⟩
      [] 77 [] [] "unknown geometry type" rfl rfl (by decide) rfl rfl rfl (by decide)
      (by decide) rfl rfl (Or.inl rfl)⟩⟩

/-! ## The compositing task: tiles outside the window -/

theorem process_layers_core (env : Env F G O) (zf : Int) (tz tx ty : Nat) (sto : Storage) :
    ∀ (ls : List (Layer F)) (st st2 : ExecState F O), st.core = st2.core →
      (process_layers env zf tz tx ty sto st ls).map ExecState.core =
        (process_layers env zf tz tx ty sto st2 ls).map ExecState.core := by
  intro ls
  induction ls with
  | nil =>
    intro st st2 h
    simp [process_layers, Except.map, h]
  | cons l rest ih =>
    intro st st2 h
    have hn : st.names = st2.names := congrArg Prod.fst h
    have hb : st.builder = st2.builder := congrArg Prod.snd h
    unfold process_layers
    rw [hn]
    by_cases hseen : l.name ∈ st2.names
    · rw [if_pos hseen, if_pos hseen]
      exact ih st st2 h
    · rw [if_neg hseen, if_neg hseen]
      cases emit_layer env zf tz tx ty sto l with
      | error e => rfl
      | ok o =>
        apply ih
        simp [ExecState.core, hb]

theorem process_tile_core (env : Env F G O) (tz tx ty : Nat) (t : TileObject)
    (st st2 : ExecState F O) (h : st.core = st2.core) :
    (process_tile env tz tx ty st t).map ExecState.core =
      (process_tile env tz tx ty st2 t).map ExecState.core := by
  unfold process_tile
  by_cases hw : env.within_target t tz tx ty = true
  · rw [if_pos hw, if_pos hw]
    cases tile_view env t with
    | error e => rfl
    | ok view =>
      have hl := process_layers_core env (zoom_factor env.shift_out_of_range tz t.z) tz tx ty
        (tile_storage env t) (env.next_layers view).1 st st2 h
      simp only
      cases h1 : process_layers env (zoom_factor env.shift_out_of_range tz t.z) tz tx ty
          (tile_storage env t) st (env.next_layers view).1 with
      | error e =>
        rw [h1] at hl
        cases h2 : process_layers env (zoom_factor env.shift_out_of_range tz t.z) tz tx ty
            (tile_storage env t) st2 (env.next_layers view).1 with
        | error e2 => rw [h2] at hl; simpa [Except.map] using hl
        | ok s2 => rw [h2] at hl; simp [Except.map] at hl
      | ok s1 =>
        rw [h1] at hl
        cases h2 : process_layers env (zoom_factor env.shift_out_of_range tz t.z) tz tx ty
            (tile_storage env t) st2 (env.next_layers view).1 with
        | error e2 => rw [h2] at hl; simp [Except.map] at hl
        | ok s2 =>
          rw [h2] at hl
          cases (env.next_layers view).2 with
          | some e => rfl
          | none => simpa [Except.map] using hl
  · rw [if_neg hw, if_neg hw]
    simpa [Except.map, ExecState.core] using h

theorem process_tiles_core (env : Env F G O) (tz tx ty : Nat) :
    ∀ (tiles : List TileObject) (st st2 : ExecState F O), st.core = st2.core →
      (process_tiles env tz tx ty st tiles).map ExecState.core =
        (process_tiles env tz tx ty st2 tiles).map ExecState.core := by
  intro tiles
  induction tiles with
  | nil => intro st st2 h; simp [process_tiles, Except.map, h]
  | cons t rest ih =>
    intro st st2 h
    have ht := process_tile_core env tz tx ty t st st2 h
    unfold process_tiles
    cases h1 : process_tile env tz tx ty st t with
    | error e =>
      rw [h1] at ht
      cases h2 : process_tile env tz tx ty st2 t with
      | error e2 =>
        rw [h2] at ht
        simp only [Except.map, Except.error.injEq] at ht
        subst ht; rfl
      | ok s2 => rw [h2] at ht; simp [Except.map] at ht
    | ok s1 =>
      rw [h1] at ht
      cases h2 : process_tile env tz tx ty st2 t with
      | error e2 => rw [h2] at ht; simp [Except.map] at ht
      | ok s2 =>
        rw [h2] at ht
        simp only [Except.map, Except.ok.injEq] at ht
        exact ih s1 s2 ht

theorem process_tiles_filter (env : Env F G O) (tz tx ty : Nat) :
    ∀ (tiles : List TileObject) (st : ExecState F O),
      (process_tiles env tz tx ty st
          (tiles.filter (fun t => env.within_target t tz tx ty))).map ExecState.core =
        (process_tiles env tz tx ty st tiles).map ExecState.core := by
  intro tiles
  induction tiles with
  | nil => intro st; rfl
  | cons t rest ih =>
    intro st
    by_cases hw : env.within_target t tz tx ty = true
    · have hf : (t :: rest).filter (fun t => env.within_target t tz tx ty) =
          t :: rest.filter (fun t => env.within_target t tz tx ty) := by
        simp [List.filter_cons, hw]
      rw [hf]
      unfold process_tiles
      cases process_tile env tz tx ty st t with
      | error e => rfl
      | ok s1 => exact ih s1
    · have hf : (t :: rest).filter (fun t => env.within_target t tz tx ty) =
          rest.filter (fun t => env.within_target t tz tx ty) := by
        simp [List.filter_cons, hw]
      rw [hf]
      have hstep : process_tiles env tz tx ty st (t :: rest) =
          process_tiles env tz tx ty
            ⟨st.names, st.builder, st.cerr ++ ["Invalid tile composite request"]⟩ rest := by
        simp [process_tiles, process_tile, hw]
      rw [hstep, ← ih]
      exact process_tiles_core env tz tx ty _ _ _ rfl

theorem Execute_of_core (env : Env F G O) (b1 b2 : BatonType)
    (h : (process_tiles env b1.z b1.x b1.y ExecState.init b1.tiles).map ExecState.core =
      (process_tiles env b2.z b2.x b2.y ExecState.init b2.tiles).map ExecState.core) :
    Execute env b1 = Execute env b2 := by
  unfold Execute
  cases h1 : process_tiles env b1.z b1.x b1.y ExecState.init b1.tiles with
  | error e =>
    rw [h1] at h
    cases h2 : process_tiles env b2.z b2.x b2.y ExecState.init b2.tiles with
    | error e2 =>
      rw [h2] at h
      simp only [Except.map, Except.error.injEq] at h
      subst h; rfl
    | ok s2 => rw [h2] at h; simp [Except.map] at h
  | ok s1 =>
    rw [h1] at h
    cases h2 : process_tiles env b2.z b2.x b2.y ExecState.init b2.tiles with
    | error e2 => rw [h2] at h; simp [Except.map] at h
    | ok s2 =>
      rw [h2] at h
      simp only [Except.map, Except.ok.injEq, ExecState.core, Prod.mk.injEq] at h
      simp only [h.2]

/-- C6: tiles that fail the containment test are skipped without an error and without their
payload being looked at.  If no tile passes the test, the loop ends normally with an empty
builder whatever the payloads are, so that `Execute` yields exactly the serialization of the
empty builder, delivered as the buffer when `serialize` does not throw on it.  And for every
request, dropping the tiles that fail the test changes neither the state `Execute` ends in nor
what the callback receives. -/
theorem containment_skip (env : Env F G O) (baton : BatonType) :
    ((∀ t ∈ baton.tiles, env.within_target t baton.z baton.x baton.y = false) →
      (∃ log, process_tiles env baton.z baton.x baton.y ExecState.init baton.tiles =
        .ok ⟨[], [], log⟩) ∧
      Execute env baton = ⟨(env.serialize []).2, (env.serialize []).1⟩ ∧
      ((env.serialize []).2 = none →
        run_worker env baton = ⟨none, some (env.serialize []).1⟩)) ∧
    (Execute env (without_skipped env baton) = Execute env baton ∧
      run_worker env (without_skipped env baton) = run_worker env baton) := by
  have hfilter : Execute env (without_skipped env baton) = Execute env baton :=
    Execute_of_core env _ baton (process_tiles_filter env baton.z baton.x baton.y baton.tiles _)
  refine ⟨?_, hfilter, by unfold run_worker; rw [hfilter]⟩
  intro hnone
  have hskip : ∀ (tiles : List TileObject) (st : ExecState F O),
      (∀ t ∈ tiles, env.within_target t baton.z baton.x baton.y = false) →
      ∃ log, process_tiles env baton.z baton.x baton.y st tiles =
        .ok ⟨st.names, st.builder, log⟩ := by
    intro tiles
    induction tiles with
    | nil => intro st _; exact ⟨st.cerr, rfl⟩
    | cons t rest ih =>
      intro st hall
      have ht : env.within_target t baton.z baton.x baton.y = false :=
        hall t (List.mem_cons_self _ _)
      obtain ⟨log, hlog⟩ := ih ⟨st.names, st.builder, st.cerr ++ ["Invalid tile composite request"]⟩
        (fun t' ht' => hall t' (List.mem_cons_of_mem _ ht'))
      exact ⟨log, by simp [process_tiles, process_tile, ht, hlog]⟩
  obtain ⟨log, hlog⟩ := hskip baton.tiles ExecState.init hnone
  have hlog' : process_tiles env baton.z baton.x baton.y ExecState.init baton.tiles =
      .ok ⟨[], [], log⟩ := hlog
  have hex : Execute env baton = ⟨(env.serialize []).2, (env.serialize []).1⟩ := by
    unfold Execute
    rw [hlog']
  refine ⟨⟨log, hlog'⟩, hex, ?_⟩
  intro hser
  simp [run_worker, WorkComplete, hex, hser, HandleOKCallback]

theorem containment_skip_witness :
    (∀ t ∈ unrelated_baton.tiles, toy_env.within_target t 1 1 1 = false) ∧
    (toy_env.serialize []).2 = none ∧
    Execute toy_env unrelated_baton = ⟨(toy_env.serialize []).2, (toy_env.serialize []).1⟩ ∧
    run_worker toy_env unrelated_baton = ⟨none, some (toy_env.serialize []).1⟩ :=
  ⟨by decide, rfl,
    ((containment_skip toy_env unrelated_baton).1 (by decide)).2.1,
    ((containment_skip toy_env unrelated_baton).1 (by decide)).2.2 rfl⟩

end Claims

/-! ## `composite`: validation of the arguments -/

theorem check_coord_iff (obj : JSValue) (key m1 m2 m3 : String) (v : Int) :
    check_coord obj key m1 m2 m3 = .ok v ↔ coord_accepted obj key v := by
  unfold check_coord coord_accepted
  by_cases hh : Has obj key = true
  · simp only [hh, Bool.not_true, Bool.false_eq_true, if_false, true_and]
    cases hg : Get obj key with
    | number n =>
      simp only [JSValue.number.injEq, exists_eq_left']
      by_cases hneg : IntegerValue n < 0
      · simp only [hneg, if_true]
        constructor
        · intro h; cases h
        · rintro ⟨rfl, h0⟩; omega
      · simp only [hneg, if_false, Except.ok.injEq]
        constructor
        · rintro rfl; exact ⟨rfl, by omega⟩
        · rintro ⟨rfl, _⟩; rfl
    | _ => simp
  · simp [hh]

theorem check_tile_iff (v : JSValue) (t : TileObject) :
    check_tile v = .ok t ↔ tile_accepted v t := by
  unfold check_tile tile_accepted
  by_cases ho : IsObject v = true
  swap
  · simp [ho]
  by_cases hb : Has v "buffer" = true
  swap
  · simp [ho, hb]
  simp only [ho, hb, Bool.not_true, Bool.false_eq_true, if_false, true_and]
  cases hg : Get v "buffer" with
  | buffer data bprops =>
    simp only [IsNullOrUndefined, Bool.false_eq_true, if_false, JSValue.buffer.injEq]
    constructor
    · intro h
      cases hz : check_coord v "z" "item in 'tiles' array does not include a 'z' value"
          "'z' value in 'tiles' array item is not a number"
          "'z' value must not be less than zero" with
      | error e => rw [hz] at h; cases h
      | ok z =>
        rw [hz] at h
        simp only at h
        cases hx : check_coord v "x" "item in 'tiles' array does not include a 'x' value"
            "'x' value in 'tiles' array item is not a number"
            "'x' value must not be less than zero" with
        | error e => rw [hx] at h; cases h
        | ok x =>
          rw [hx] at h
          simp only at h
          cases hy : check_coord v "y" "item in 'tiles' array does not include a 'y' value"
              "'y' value in 'tiles' array item is not a number"
              "'y' value must not be less than zero" with
          | error e => rw [hy] at h; cases h
          | ok y =>
            rw [hy] at h
            simp only [Except.ok.injEq] at h
            exact ⟨data, bprops, z, x, y, ⟨rfl, rfl⟩, (check_coord_iff _ _ _ _ _ _).mp hz,
              (check_coord_iff _ _ _ _ _ _).mp hx, (check_coord_iff _ _ _ _ _ _).mp hy, h.symm⟩
    · rintro ⟨data', bprops', z, x, y, ⟨rfl, rfl⟩, hz, hx, hy, rfl⟩
      rw [(check_coord_iff v "z" _ _ _ z).mpr hz, (check_coord_iff v "x" _ _ _ x).mpr hx,
        (check_coord_iff v "y" _ _ _ y).mpr hy]
  | undefined => simp [IsNullOrUndefined]
  | null => simp [IsNullOrUndefined]
  | boolean b => simp [IsNullOrUndefined]
  | number n => simp [IsNullOrUndefined]
  | string s => simp [IsNullOrUndefined]
  | object ps => simp [IsNullOrUndefined]
  | array items ps => simp [IsNullOrUndefined]
  | function ps => simp [IsNullOrUndefined]

theorem check_maprequest_iff (req : JSValue) (w : Nat × Nat × Nat) :
    check_maprequest req = .ok w ↔ maprequest_accepted req w := by
  unfold check_maprequest maprequest_accepted
  by_cases ho : IsObject req = true
  swap
  · simp [ho]
  simp only [ho, Bool.not_true, Bool.false_eq_true, if_false, true_and]
  constructor
  · intro h
    cases hz : check_coord req "z" "item in 'tiles' array does not include a 'z' value"
        "'z' value in 'tiles' array item is not a number"
        "'z' value must not be less than zero" with
    | error e => rw [hz] at h; cases h
    | ok z =>
      rw [hz] at h
      simp only at h
      cases hx : check_coord req "x" "item in 'tiles' array does not include a 'x' value"
          "'x' value in 'tiles' array item is not a number"
          "'x' value must not be less than zero" with
      | error e => rw [hx] at h; cases h
      | ok x =>
        rw [hx] at h
        simp only at h
        cases hy : check_coord req "y" "item in 'tiles' array does not include a 'y' value"
            "'y' value in 'tiles' array item is not a number"
            "'y' value must not be less than zero" with
        | error e => rw [hy] at h; cases h
        | ok y =>
          rw [hy] at h
          simp only [Except.ok.injEq] at h
          exact ⟨z, x, y, (check_coord_iff _ _ _ _ _ _).mp hz,
            (check_coord_iff _ _ _ _ _ _).mp hx, (check_coord_iff _ _ _ _ _ _).mp hy, h.symm⟩
  · rintro ⟨z, x, y, hz, hx, hy, rfl⟩
    rw [(check_coord_iff req "z" _ _ _ z).mpr hz, (check_coord_iff req "x" _ _ _ x).mpr hx,
      (check_coord_iff req "y" _ _ _ y).mpr hy]

theorem check_tiles_iff :
    ∀ (items : List JSValue) (ts : List TileObject),
      check_tiles items = .ok ts ↔ List.Forall₂ tile_accepted items ts := by
  intro items
  induction items with
  | nil =>
    intro ts
    simp only [check_tiles, Except.ok.injEq, List.forall₂_nil_left_iff]
    exact eq_comm
  | cons v rest ih =>
    intro ts
    unfold check_tiles
    cases hv : check_tile v with
    | error e =>
      constructor
      · intro h; cases h
      · intro h
        cases h with
        | cons h1 _ => rw [← check_tile_iff, hv] at h1; cases h1
    | ok t =>
      simp only
      cases hr : check_tiles rest with
      | error e =>
        constructor
        · intro h; cases h
        · intro h
          cases h with
          | cons _ h2 => rw [← ih, hr] at h2; cases h2
      | ok ts' =>
        simp only [Except.ok.injEq]
        constructor
        · rintro rfl
          exact List.Forall₂.cons ((check_tile_iff v t).mp hv) ((ih ts').mp hr)
        · intro h
          cases h with
          | cons h1 h2 =>
            rw [← check_tile_iff, hv] at h1
            rw [← ih, hr] at h2
            cases h1; cases h2; rfl

theorem check_tiles_error_of_mem :
    ∀ (items : List JSValue) (v : JSValue), v ∈ items → (∀ t, check_tile v ≠ .ok t) →
      ∃ e, check_tiles items = .error e := by
  intro items
  induction items with
  | nil => intro v hv; cases hv
  | cons a rest ih =>
    intro v hv hbad
    unfold check_tiles
    cases ha : check_tile a with
    | error e => exact ⟨e, rfl⟩
    | ok t =>
      rcases List.mem_cons.mp hv with rfl | hmem
      · exact absurd ha (hbad t)
      · obtain ⟨e, he⟩ := ih v hmem hbad
        exact ⟨e, by simp [he]⟩

theorem composite_queued_iff (info : List JSValue) (baton : BatonType) :
    composite info = .queued baton ↔
      IsFunction (last_arg info) = true ∧
      ∃ items props, arg info 0 = .array items props ∧ items ≠ [] ∧
        List.Forall₂ tile_accepted items baton.tiles ∧
        maprequest_accepted (arg info 1) (baton.z, baton.x, baton.y) := by
  constructor
  · intro h
    unfold composite at h
    by_cases hf : IsFunction (last_arg info) = true
    swap
    · simp [hf] at h
    simp only [hf, Bool.not_true, Bool.false_eq_true, if_false] at h
    refine ⟨hf, ?_⟩
    cases ha : arg info 0 with
    | array items props =>
      rw [ha] at h
      simp only at h
      cases items with
      | nil => simp at h
      | cons v rest =>
        simp only [List.length_cons, Nat.le_zero_eq, Nat.add_one_ne_zero, if_false] at h
        cases ht : check_tiles (v :: rest) with
        | error e => rw [ht] at h; cases h
        | ok ts =>
          rw [ht] at h
          simp only at h
          cases hm : check_maprequest (arg info 1) with
          | error e => rw [hm] at h; cases h
          | ok w =>
            obtain ⟨z, x, y⟩ := w
            rw [hm] at h
            simp only [CompositeResult.queued.injEq] at h
            subst h
            exact ⟨v :: rest, props, rfl, List.cons_ne_nil _ _, (check_tiles_iff _ _).mp ht,
              (check_maprequest_iff _ _).mp hm⟩
    | undefined => rw [ha] at h; cases h
    | null => rw [ha] at h; cases h
    | boolean b => rw [ha] at h; cases h
    | number n => rw [ha] at h; cases h
    | string s => rw [ha] at h; cases h
    | object ps => rw [ha] at h; cases h
    | function ps => rw [ha] at h; cases h
    | buffer d ps => rw [ha] at h; cases h
  · rintro ⟨hf, items, props, ha, hne, ht, hm⟩
    unfold composite
    simp only [hf, Bool.not_true, Bool.false_eq_true, if_false]
    rw [ha]
    simp only
    cases items with
    | nil => exact absurd rfl hne
    | cons v rest =>
      simp only [List.length_cons, Nat.le_zero_eq, Nat.add_one_ne_zero, if_false]
      rw [(check_tiles_iff _ _).mpr ht, (check_maprequest_iff _ _).mpr hm]

theorem composite_not_thrown (info : List JSValue) (hf : IsFunction (last_arg info) = true) :
    (∃ msg, composite info = .callback_error msg) ∨ ∃ baton, composite info = .queued baton := by
  unfold composite
  simp only [hf, Bool.not_true, Bool.false_eq_true, if_false]
  cases arg info 0 with
  | array items props =>
    simp only
    split
    · exact Or.inl ⟨_, rfl⟩
    · cases check_tiles items with
      | error e => exact Or.inl ⟨_, rfl⟩
      | ok ts =>
        cases check_maprequest (arg info 1) with
        | error e => exact Or.inl ⟨_, rfl⟩
        | ok w => exact Or.inr ⟨_, rfl⟩
  | _ => exact Or.inl ⟨_, rfl⟩

theorem IntegerValue_of_toInt (n : JSNumber) (k : Int) (h : n.toInt? = some k)
    (hlo : int64_min ≤ k) (hhi : k ≤ int64_max) : IntegerValue n = k := by
  cases n with
  | finite m e =>
    unfold JSNumber.toInt? at h
    unfold IntegerValue
    by_cases he : 0 ≤ e
    · simp only [he, if_true, Option.some.injEq] at h
      simp only [he, if_true, h]
      rw [if_neg (by omega), if_neg (by omega)]
    · simp only [he, if_false] at h
      by_cases hd : m % 2 ^ (-e).toNat = 0
      · simp only [hd, if_true, Option.some.injEq] at h
        have hdvd : (2 : Int) ^ (-e).toNat ∣ m := Int.dvd_of_emod_eq_zero hd
        simp only [he, if_false, Int.tdiv_eq_ediv_of_dvd hdvd, h]
        rw [if_neg (by omega), if_neg (by omega)]
      · simp [hd] at h
  | nan => cases h
  | pos_inf => cases h
  | neg_inf => cases h

theorem Has_of_Get_number (obj : JSValue) (key : String) (n : JSNumber)
    (h : Get obj key = .number n) : Has obj key = true ∧ IsObject obj = true := by
  unfold Get at h
  cases hf : obj.props.find? (fun p => p.1 == key) with
  | none => rw [hf] at h; cases h
  | some p =>
    constructor
    · unfold Has
      rw [List.any_eq_true]
      exact ⟨p, List.mem_of_find?_eq_some hf, by simpa using List.find?_some hf⟩
    · cases obj with
      | object ps => rfl
      | array items ps => rfl
      | function ps => rfl
      | buffer d ps => rfl
      | undefined => simp [JSValue.props] at hf
      | null => simp [JSValue.props] at hf
      | boolean b => simp [JSValue.props] at hf
      | number m => simp [JSValue.props] at hf
      | string str => simp [JSValue.props] at hf

theorem IntegerValue_nonneg_of_toInt (n : JSNumber) (k : Int) (h : n.toInt? = some k)
    (h0 : 0 ≤ k) : 0 ≤ IntegerValue n := by
  by_cases hhi : k ≤ int64_max
  · rw [IntegerValue_of_toInt n k h (by unfold int64_min; omega) hhi]
    exact h0
  · cases n with
    | finite m e =>
      have hgt : int64_max < k := by omega
      have hnlt : ¬ k < int64_min := by unfold int64_min; omega
      unfold JSNumber.toInt? at h
      unfold IntegerValue
      by_cases he : 0 ≤ e
      · simp only [he, if_true, Option.some.injEq] at h
        simp only [he, if_true, h]
        rw [if_neg hnlt, if_pos hgt]
        decide
      · simp only [he, if_false] at h
        by_cases hd : m % 2 ^ (-e).toNat = 0
        · simp only [hd, if_true, Option.some.injEq] at h
          have hdvd : (2 : Int) ^ (-e).toNat ∣ m := Int.dvd_of_emod_eq_zero hd
          simp only [he, if_false, Int.tdiv_eq_ediv_of_dvd hdvd, h]
          rw [if_neg hnlt, if_pos hgt]
          decide
        · simp [hd] at h
    | nan => cases h
    | pos_inf => cases h
    | neg_inf => cases h

theorem spec_coord_accepted (obj : JSValue) (key : String) (h : spec_coord obj key = true) :
    IsObject obj = true ∧ ∃ v, coord_accepted obj key v := by
  unfold spec_coord at h
  cases hg : Get obj key with
  | number n =>
    rw [hg] at h
    simp only at h
    cases hk : n.toInt? with
    | none => rw [hk] at h; cases h
    | some k =>
      rw [hk] at h
      simp only [decide_eq_true_eq] at h
      obtain ⟨hhas, hobj⟩ := Has_of_Get_number obj key n hg
      exact ⟨hobj, IntegerValue n, hhas, n, hg, rfl, IntegerValue_nonneg_of_toInt n k hk h⟩
  | undefined => rw [hg] at h; cases h
  | null => rw [hg] at h; cases h
  | boolean b => rw [hg] at h; cases h
  | string str => rw [hg] at h; cases h
  | object ps => rw [hg] at h; cases h
  | array items ps => rw [hg] at h; cases h
  | function ps => rw [hg] at h; cases h
  | buffer d ps => rw [hg] at h; cases h

theorem spec_tile_record_accepted (v : JSValue) (h : spec_tile_record v = true) :
    ∃ t, tile_accepted v t := by
  unfold spec_tile_record at h
  simp only [Bool.and_eq_true] at h
  obtain ⟨⟨⟨⟨hobj, hbuf⟩, hz⟩, hx⟩, hy⟩ := h
  obtain ⟨_, z, haz⟩ := spec_coord_accepted v "z" hz
  obtain ⟨_, x, hax⟩ := spec_coord_accepted v "x" hx
  obtain ⟨_, y, hay⟩ := spec_coord_accepted v "y" hy
  cases hg : Get v "buffer" with
  | buffer data bprops =>
    have hhas : Has v "buffer" = true := by
      unfold Get at hg
      cases hf : v.props.find? (fun p => p.1 == "buffer") with
      | none => rw [hf] at hg; cases hg
      | some p =>
        unfold Has
        rw [List.any_eq_true]
        exact ⟨p, List.mem_of_find?_eq_some hf, by simpa using List.find?_some hf⟩
    exact ⟨_, hobj, hhas, data, bprops, z, x, y, hg, haz, hax, hay, rfl⟩
  | undefined => rw [hg] at hbuf; cases hbuf
  | null => rw [hg] at hbuf; cases hbuf
  | boolean b => rw [hg] at hbuf; cases hbuf
  | number n => rw [hg] at hbuf; cases hbuf
  | string str => rw [hg] at hbuf; cases hbuf
  | object ps => rw [hg] at hbuf; cases hbuf
  | array items ps => rw [hg] at hbuf; cases hbuf
  | function ps => rw [hg] at hbuf; cases hbuf

theorem spec_tiles_accepted :
    ∀ (items : List JSValue), items.all spec_tile_record = true →
      ∃ ts, List.Forall₂ tile_accepted items ts := by
  intro items
  induction items with
  | nil => intro _; exact ⟨[], List.Forall₂.nil⟩
  | cons v rest ih =>
    intro h
    simp only [List.all_cons, Bool.and_eq_true] at h
    obtain ⟨t, ht⟩ := spec_tile_record_accepted v h.1
    obtain ⟨ts, hts⟩ := ih h.2
    exact ⟨t :: ts, List.Forall₂.cons ht hts⟩

theorem spec_contract_queued (info : List JSValue) (hf : IsFunction (last_arg info) = true)
    (h : spec_contract info = true) : ∃ baton, composite info = .queued baton := by
  unfold spec_contract at h
  cases ha : arg info 0 with
  | array items props =>
    rw [ha] at h
    simp only [Bool.and_eq_true, Bool.not_eq_true', List.isEmpty_eq_false] at h
    obtain ⟨⟨⟨⟨hne, hall⟩, hz⟩, hx⟩, hy⟩ := h
    obtain ⟨ts, hts⟩ := spec_tiles_accepted items hall
    obtain ⟨hobj, z, haz⟩ := spec_coord_accepted (arg info 1) "z" hz
    obtain ⟨_, x, hax⟩ := spec_coord_accepted (arg info 1) "x" hx
    obtain ⟨_, y, hay⟩ := spec_coord_accepted (arg info 1) "y" hy
    refine ⟨⟨ts, to_u32 z, to_u32 x, to_u32 y⟩, ?_⟩
    rw [composite_queued_iff]
    exact ⟨hf, items, props, ha, hne, hts, hobj, z, x, y, haz, hax, hay, rfl⟩
  | undefined => rw [ha] at h; cases h
  | null => rw [ha] at h; cases h
  | boolean b => rw [ha] at h; cases h
  | number n => rw [ha] at h; cases h
  | string str => rw [ha] at h; cases h
  | object ps => rw [ha] at h; cases h
  | function ps => rw [ha] at h; cases h
  | buffer d ps => rw [ha] at h; cases h

/-- C7 (as stated, refuted): a call whose tile record has `z = -0.5` and whose request has
`y = NaN` violates the validation contract of the spec (integer `z`, `x`, `y`, all `≥ 0`), yet
no error is passed to the callback: a worker is queued, with both values stored as `0`. -/
theorem contract_violation_queued :
    spec_contract [.array [tile_record [1] (.number (.finite (-1) (-1))) (js_int 0) (js_int 0)] [],
        zxy_record (js_int 1) (js_int 0) (.number .nan), .function []] = false ∧
    composite [.array [tile_record [1] (.number (.finite (-1) (-1))) (js_int 0) (js_int 0)] [],
        zxy_record (js_int 1) (js_int 0) (.number .nan), .function []] =
      .queued { tiles := [⟨0, 0, 0, [1]⟩], z := 1, x := 0, y := 0 } := by
  decide

/-- C7 (amended): errors found by the checks of `composite` never reach the worker pool.  A
`CompositeWorker` is queued exactly when the last argument is a function, the first is a
non-empty array, every element of it passes every check on a tile record (an object whose
`buffer` is a `Buffer` and whose `z`, `x`, `y` are present, Numbers, and not negative once
converted by `IntegerValue()`), and the second argument passes the same checks on `z`, `x`,
`y`; the baton then holds the validated tiles and window.  In every other call with a callback
function an error is passed to the callback and nothing is queued; for an empty `tiles` array
the message is "'tiles' array must be of length greater than 0".  Every call with a callback
function that satisfies the validation contract of the spec is queued. -/
theorem validation_before_queue (info : List JSValue) :
    (∀ baton, composite info = .queued baton ↔
      IsFunction (last_arg info) = true ∧
      ∃ items props, arg info 0 = .array items props ∧ items ≠ [] ∧
        List.Forall₂ tile_accepted items baton.tiles ∧
        maprequest_accepted (arg info 1) (baton.z, baton.x, baton.y)) ∧
    (IsFunction (last_arg info) = true → (¬ ∃ baton, composite info = .queued baton) →
      ∃ msg, composite info = .callback_error msg) ∧
    (IsFunction (last_arg info) = true → ∀ props, arg info 0 = .array [] props →
      composite info = .callback_error "'tiles' array must be of length greater than 0") ∧
    (IsFunction (last_arg info) = true → spec_contract info = true →
      ∃ baton, composite info = .queued baton) := by
  refine ⟨composite_queued_iff info, ?_, ?_, spec_contract_queued info⟩
  · intro hf hnq
    rcases composite_not_thrown info hf with h | h
    · exact h
    · exact absurd h hnq
  · intro hf props ha
    simp [composite, hf, ha]

theorem validation_before_queue_witness :
    (IsFunction (last_arg [.array [] [], zxy_record (js_int 0) (js_int 0) (js_int 0),
      .function []]) = true ∧
    composite [.array [] [], zxy_record (js_int 0) (js_int 0) (js_int 0), .function []] =
      .callback_error "'tiles' array must be of length greater than 0") ∧
    (spec_contract [.array [tile_record [1] (js_int 5) (js_int 3) (js_int 3)] [],
        zxy_record (js_int 7) (js_int 13) (js_int 15), .function []] = true ∧
    ∃ baton, composite [.array [tile_record [1] (js_int 5) (js_int 3) (js_int 3)] [],
        zxy_record (js_int 7) (js_int 13) (js_int 15), .function []] = .queued baton) :=
  ⟨⟨rfl, (validation_before_queue [.array [] [], zxy_record (js_int 0) (js_int 0) (js_int 0),
    .function []]).2.2.1 rfl [] rfl⟩,
   ⟨by decide, (validation_before_queue [.array [tile_record [1] (js_int 5) (js_int 3) (js_int 3)] [],
        zxy_record (js_int 7) (js_int 13) (js_int 15), .function []]).2.2.2 rfl (by decide)⟩⟩

/-- C8 (the code at a failing input): with a valid `tiles` array and a request object that
lacks `z`, the message passed to the callback is "item in 'tiles' array does not include a 'z'
value", the very message produced for a tile record that lacks `z`; likewise a request whose
`z` is a string is reported as "'z' value in 'tiles' array item is not a number", and one
whose `z` is negative as "'z' value must not be less than zero", each as for a tile record. -/
theorem maprequest_error_names_tiles :
    composite [.array [tile_record [1] (js_int 0) (js_int 0) (js_int 0)] [],
        .object [("x", js_int 0), ("y", js_int 0)], .function []] =
      .callback_error "item in 'tiles' array does not include a 'z' value" ∧
    composite [.array [.object [("buffer", .buffer [1] []), ("x", js_int 0), ("y", js_int 0)]] [],
        zxy_record (js_int 0) (js_int 0) (js_int 0), .function []] =
      .callback_error "item in 'tiles' array does not include a 'z' value" ∧
    composite [.array [tile_record [1] (js_int 0) (js_int 0) (js_int 0)] [],
        zxy_record (.string "0") (js_int 0) (js_int 0), .function []] =
      .callback_error "'z' value in 'tiles' array item is not a number" ∧
    composite [.array [tile_record [1] (.string "0") (js_int 0) (js_int 0)] [],
        zxy_record (js_int 0) (js_int 0) (js_int 0), .function []] =
      .callback_error "'z' value in 'tiles' array item is not a number" ∧
    composite [.array [tile_record [1] (js_int 0) (js_int 0) (js_int 0)] [],
        zxy_record (js_int (-1)) (js_int 0) (js_int 0), .function []] =
      .callback_error "'z' value must not be less than zero" ∧
    composite [.array [tile_record [1] (js_int (-1)) (js_int 0) (js_int 0)] [],
        zxy_record (js_int 0) (js_int 0) (js_int 0), .function []] =
      .callback_error "'z' value must not be less than zero" := by
  decide

/-- C9 (as stated, refuted): a tile record whose `z` is the non-integer number `1.5` passes
validation; a worker is queued, with `z` stored as `1`. -/
theorem fractional_coordinate_accepted :
    composite [.array [tile_record [1] (.number (.finite 3 (-1))) (js_int 0) (js_int 0)] [],
        zxy_record (js_int 1) (js_int 0) (js_int 0), .function []] =
      .queued { tiles := [⟨1, 0, 0, [1]⟩], z := 1, x := 0, y := 0 } := by
  decide

theorem check_coord_rejects (obj : JSValue) (key m1 m2 m3 : String)
    (hbad : Has obj key = false ∨ (∀ n, Get obj key ≠ .number n) ∨
      ∃ n, Get obj key = .number n ∧ IntegerValue n < 0) :
    ∀ v, check_coord obj key m1 m2 m3 ≠ .ok v := by
  intro v hv
  rw [check_coord_iff] at hv
  obtain ⟨hh, n, hg, hi, h0⟩ := hv
  rcases hbad with h | h | ⟨n', hg', hneg⟩
  · rw [hh] at h; cases h
  · exact h n hg
  · rw [hg] at hg'
    cases hg'
    omega

/-- C9 (amended): a tile record is accepted exactly when it is an object whose `buffer` is a
node `Buffer` and whose `z`, `x` and `y` are each present, a Number, and not negative once
converted by `IntegerValue()` (which drops the fraction).  Hence a record whose `buffer` is
not a `Buffer`, or one of whose `z`, `x`, `y` is missing, is not a Number, or converts to a
negative integer, fails validation; and in a call with a callback function whose `tiles`
array contains a record that fails validation, an error is passed to the callback and no
worker is queued. -/
theorem tile_record_validation (v : JSValue) :
    (∀ t, check_tile v = .ok t ↔ tile_accepted v t) ∧
    (∀ key, key = "z" ∨ key = "x" ∨ key = "y" →
      (Has v key = false ∨ (∀ n, Get v key ≠ .number n) ∨
        ∃ n, Get v key = .number n ∧ IntegerValue n < 0) →
      ∀ t, check_tile v ≠ .ok t) ∧
    ((∀ data bprops, Get v "buffer" ≠ .buffer data bprops) → ∀ t, check_tile v ≠ .ok t) ∧
    ((∀ t, check_tile v ≠ .ok t) → ∀ info items props, IsFunction (last_arg info) = true →
      arg info 0 = .array items props → v ∈ items →
      ∃ msg, composite info = .callback_error msg) := by
  refine ⟨check_tile_iff v, ?_, ?_, ?_⟩
  · intro key hkey hbad t ht
    rw [check_tile_iff] at ht
    obtain ⟨_, _, data, bprops, z, x, y, _, hz, hx, hy, _⟩ := ht
    rcases hkey with rfl | rfl | rfl
    · exact check_coord_rejects v "z" "" "" "" hbad z ((check_coord_iff _ _ _ _ _ _).mpr hz)
    · exact check_coord_rejects v "x" "" "" "" hbad x ((check_coord_iff _ _ _ _ _ _).mpr hx)
    · exact check_coord_rejects v "y" "" "" "" hbad y ((check_coord_iff _ _ _ _ _ _).mpr hy)
  · intro hbuf t ht
    rw [check_tile_iff] at ht
    obtain ⟨_, _, data, bprops, _, _, _, hg, _⟩ := ht
    exact hbuf data bprops hg
  · intro hbad info items props hf ha hmem
    obtain ⟨e, he⟩ := check_tiles_error_of_mem items v hmem hbad
    refine ⟨e, ?_⟩
    unfold composite
    simp only [hf, Bool.not_true, Bool.false_eq_true, if_false]
    rw [ha]
    simp only
    cases items with
    | nil => cases hmem
    | cons a rest =>
      simp only [List.length_cons, Nat.le_zero_eq, Nat.add_one_ne_zero, if_false]
      rw [he]

theorem tile_record_validation_witness :
    (Get (tile_record [1] (js_int (-1)) (js_int 0) (js_int 0)) "z" = js_int (-1) ∧
      IntegerValue (.finite (-1) 0) < 0) ∧
    composite [.array [tile_record [1] (js_int (-1)) (js_int 0) (js_int 0)] [],
        zxy_record (js_int 0) (js_int 0) (js_int 0), .function []] =
      .callback_error "'z' value must not be less than zero" ∧
    ∃ msg, composite [.array [tile_record [1] (js_int (-1)) (js_int 0) (js_int 0)] [],
        zxy_record (js_int 0) (js_int 0) (js_int 0), .function []] = .callback_error msg :=
  ⟨⟨rfl, by decide⟩, by decide,
    (tile_record_validation (tile_record [1] (js_int (-1)) (js_int 0) (js_int 0))).2.2.2
      ((tile_record_validation (tile_record [1] (js_int (-1)) (js_int 0) (js_int 0))).2.1 "z"
        (Or.inl rfl) (Or.inr (Or.inr ⟨.finite (-1) 0, rfl, by decide⟩)))
      [.array [tile_record [1] (js_int (-1)) (js_int 0) (js_int 0)] [],
        zxy_record (js_int 0) (js_int 0) (js_int 0), .function []]
      [tile_record [1] (js_int (-1)) (js_int 0) (js_int 0)] [] rfl rfl
      (List.mem_singleton.mpr rfl)⟩

/-- C10 (as stated, refuted): the tile records with `z = 4294967296` and with `z = 0` are both
accepted and both stored with `z = 0`; a request with `x = 4294967301` is stored with
`x = 5`. -/
theorem large_coordinate_truncated :
    composite [.array [tile_record [1] (js_int 4294967296) (js_int 0) (js_int 0)] [],
        zxy_record (js_int 0) (js_int 4294967301) (js_int 0), .function []] =
      .queued { tiles := [⟨0, 0, 0, [1]⟩], z := 0, x := 5, y := 0 } ∧
    composite [.array [tile_record [1] (js_int 0) (js_int 0) (js_int 0)] [],
        zxy_record (js_int 0) (js_int 5) (js_int 0), .function []] =
      .queued { tiles := [⟨0, 0, 0, [1]⟩], z := 0, x := 5, y := 0 } := by
  decide

theorem coord_accepted_faithful (obj : JSValue) (key : String) (v : Int)
    (h : coord_accepted obj key v) : coord_faithful obj key (to_u32 v) := by
  obtain ⟨_, n', hg', hi, h0⟩ := h
  intro n k hg hk hlt
  rw [hg'] at hg
  cases hg
  have hhi : k ≤ int64_max := by
    unfold int64_max
    norm_num at hlt ⊢
    omega
  have hkv : k = v := by
    by_cases hlo : int64_min ≤ k
    · rw [← hi, IntegerValue_of_toInt n' k hk hlo hhi]
    · exfalso
      have hneg : IntegerValue n' < 0 := by
        cases n' with
        | finite m e =>
          have hlo' : k < int64_min := by omega
          unfold JSNumber.toInt? at hk
          unfold IntegerValue
          by_cases he : 0 ≤ e
          · simp only [he, if_true, Option.some.injEq] at hk
            simp only [he, if_true, hk]
            rw [if_pos hlo']
            decide
          · simp only [he, if_false] at hk
            by_cases hd : m % 2 ^ (-e).toNat = 0
            · simp only [hd, if_true, Option.some.injEq] at hk
              have hdvd : (2 : Int) ^ (-e).toNat ∣ m := Int.dvd_of_emod_eq_zero hd
              simp only [he, if_false, Int.tdiv_eq_ediv_of_dvd hdvd, hk]
              rw [if_pos hlo']
              decide
            · simp [hd] at hk
        | nan => cases hk
        | pos_inf => cases hk
        | neg_inf => cases hk
      omega
  subst hkv
  unfold to_u32
  norm_num at hlt
  rw [Int.emod_eq_of_lt h0 (by norm_num; exact hlt)]
  exact Int.toNat_of_nonneg h0

/-- C10 (amended): when `composite` queues a worker, every coordinate that the caller supplied
as an integer below `2^32` is stored unchanged, in each `TileObject` and in the window of the
baton; so two such supplied values that are stored as the same number are equal. -/
theorem stored_coordinates_faithful (info : List JSValue) (baton : BatonType)
    (h : composite info = .queued baton) :
    (∃ items props, arg info 0 = .array items props ∧
      List.Forall₂ (fun v t => coord_faithful v "z" t.z ∧ coord_faithful v "x" t.x ∧
        coord_faithful v "y" t.y) items baton.tiles) ∧
    (coord_faithful (arg info 1) "z" baton.z ∧ coord_faithful (arg info 1) "x" baton.x ∧
      coord_faithful (arg info 1) "y" baton.y) ∧
    (∀ obj₁ obj₂ key stored n₁ n₂ k₁ k₂, coord_faithful obj₁ key stored →
      coord_faithful obj₂ key stored →
      Get obj₁ key = .number n₁ → n₁.toInt? = some k₁ → k₁ < 2 ^ 32 →
      Get obj₂ key = .number n₂ → n₂.toInt? = some k₂ → k₂ < 2 ^ 32 → k₁ = k₂) := by
  obtain ⟨_, items, props, ha, _, ht, hm⟩ := (composite_queued_iff info baton).mp h
  refine ⟨⟨items, props, ha, ?_⟩, ?_, ?_⟩
  · refine List.Forall₂.imp ?_ ht
    rintro v t ⟨_, _, data, bprops, z, x, y, _, hz, hx, hy, rfl⟩
    exact ⟨coord_accepted_faithful v "z" z hz, coord_accepted_faithful v "x" x hx,
      coord_accepted_faithful v "y" y hy⟩
  · obtain ⟨_, z, x, y, hz, hx, hy, hw⟩ := hm
    simp only [Prod.mk.injEq] at hw
    obtain ⟨h1, h2, h3⟩ := hw
    rw [h1, h2, h3]
    exact ⟨coord_accepted_faithful _ "z" z hz, coord_accepted_faithful _ "x" x hx,
      coord_accepted_faithful _ "y" y hy⟩
  · intro obj₁ obj₂ key stored n₁ n₂ k₁ k₂ hf₁ hf₂ hg₁ hk₁ hl₁ hg₂ hk₂ hl₂
    rw [← hf₁ n₁ k₁ hg₁ hk₁ hl₁, ← hf₂ n₂ k₂ hg₂ hk₂ hl₂]

theorem stored_coordinates_faithful_witness :
    composite [.array [tile_record [1] (js_int 5) (js_int 3) (js_int 3)] [],
        zxy_record (js_int 7) (js_int 13) (js_int 15), .function []] =
      .queued { tiles := [⟨5, 3, 3, [1]⟩], z := 7, x := 13, y := 15 } ∧
    (coord_faithful (arg [.array [tile_record [1] (js_int 5) (js_int 3) (js_int 3)] [],
        zxy_record (js_int 7) (js_int 13) (js_int 15), .function []] 1) "z" 7 ∧
      coord_faithful (arg [.array [tile_record [1] (js_int 5) (js_int 3) (js_int 3)] [],
        zxy_record (js_int 7) (js_int 13) (js_int 15), .function []] 1) "x" 13 ∧
      coord_faithful (arg [.array [tile_record [1] (js_int 5) (js_int 3) (js_int 3)] [],
        zxy_record (js_int 7) (js_int 13) (js_int 15), .function []] 1) "y" 15) :=
  ⟨by decide,
    (stored_coordinates_faithful [.array [tile_record [1] (js_int 5) (js_int 3) (js_int 3)] [],
        zxy_record (js_int 7) (js_int 13) (js_int 15), .function []]
      { tiles := [⟨5, 3, 3, [1]⟩], z := 7, x := 13, y := 15 } (by decide)).2.1⟩

end vtile
